import Mathlib

/-!
Verification of the subsurface profile-and-decompression engine
(src/core/profile.c) against its natural-language specification.

The development shallowly embeds the C functions of profile.c as Lean
functions: machine integers become `Int`/`Nat` (no overflow is relevant at
the value ranges involved), C struct reads/writes become explicit state
passing, and array iteration becomes structural recursion over lists.
Helpers of the repository that are not part of the provided sources
(deco.c, dive.h, equipment.c) are either taken as parameters or modelled
from the specification; their doc comments say so explicitly.
-/

set_option maxHeartbeats 1000000
set_option linter.unusedVariables false

/-- C integer division: truncation toward zero (`Int.tdiv`), which is what
`/` on `int` computes in C.  On non-negative operands it agrees with
Lean's `/` on `Int`. -/
def cdiv (a b : Int) : Int := Int.tdiv a b


/-! ## Event-name registry: `remember_event` (profile.c:145) -/

/-- One element of the `ev_namelist` registry (`struct ev_select`):
the event name (a C string, modelled as the list of its byte values
before the terminating NUL, so none of them is 0) and the display flag
`plot_ev`. -/
structure EvSelect where
  ev_name : List Nat
  plot_ev : Bool
  deriving Repr, DecidableEq

/-- C `strncmp(a, b, n)`: compare at most `n` characters, stopping at the
first difference or at a terminating NUL.  The model represents a C string
by its byte values before the terminator, so an exhausted list plays the
role of the NUL byte. -/
def strncmp : List Nat → List Nat → Nat → Int
  | _, _, 0 => 0
  | [], [], _ + 1 => 0
  | [], b :: _, _ + 1 => 0 - (b : Int)
  | a :: _, [], _ + 1 => (a : Int)
  | a :: as, b :: bs, n + 1 =>
    if a = b then strncmp as bs n else (a : Int) - (b : Int)

/-- `remember_event` (profile.c:145): a NULL or empty name is ignored; a
name whose first `strlen(name)` characters coincide with the start of an
already-registered name is ignored; otherwise the name is appended to the
registry with `plot_ev = true`.  The reallocation of the backing array is
modelled as always succeeding. -/
def remember_event (registry : List EvSelect) (eventname : Option (List Nat)) :
    List EvSelect :=
  match eventname with
  | none => registry
  | some name =>
    if name.length = 0 then registry
    else if registry.any (fun e => strncmp name e.ev_name name.length = 0) then registry
    else registry ++ [⟨name, true⟩]


/-! ## CCR oxygen-sensor voting: `calculate_ccr_po2` (profile.c:1174) -/

/-- The accumulator of `calculate_ccr_po2`'s scanning loop:
`np` (number of valid readings), `sump`, `minp`, `maxp`. -/
structure CcrStats where
  np : Nat
  sump : Int
  minp : Int
  maxp : Int
  deriving Repr, DecidableEq

/-- The scanning loop of `calculate_ccr_po2` (profile.c:1180-1186): count,
sum, minimum and maximum of the non-zero sensor readings, starting from
`np = 0, sump = 0, minp = 999999, maxp = -999999`. -/
def ccrScan (readings : List Int) : CcrStats :=
  readings.foldl
    (fun st p =>
      if p ≠ 0 then
        { np := st.np + 1, sump := st.sump + p, minp := min st.minp p, maxp := max st.maxp p }
      else st)
    ⟨0, 0, 999999, -999999⟩

/-- `calculate_ccr_po2` (profile.c:1174): sensor voting over the (up to
three) oxygen-sensor readings of one plot entry.  `o2pressure` is the
entry's previously computed value, returned when no sensor is valid.
Integer division is C division; every divided quantity is non-negative
whenever the readings are. -/
def calculate_ccr_po2 (readings : List Int) (o2pressure : Int) : Int :=
  let st := ccrScan readings
  let diff_limit : Int := 100
  match st.np with
  | 0 => o2pressure
  | 1 => st.sump
  | 2 => cdiv st.sump 2
  | 3 =>
    if 2 * st.maxp - st.sump + st.minp < diff_limit then
      if 2 * st.minp - st.sump + st.maxp ≠ 0 then cdiv st.sump 3
      else cdiv (st.sump - st.minp) 2
    else
      if 2 * st.minp - st.sump + st.maxp ≠ 0 then cdiv (st.sump - st.maxp) 2
      else cdiv st.sump 3
  | _ + 4 => 0

/-- The voting rule as the specification words it (§4.3): with three valid
readings, accept the simple three-way average if both the
max-vs-sum-minus-extremes and the min-vs-sum-minus-extremes differences
are below the 100 mbar tolerance; otherwise discard whichever extreme
disagrees and average the remaining two.  This definition follows the
spec, to be compared against `calculate_ccr_po2` above. -/
def ccr_po2_voting_spec (readings : List Int) (o2pressure : Int) : Int :=
  let st := ccrScan readings
  let diff_limit : Int := 100
  match st.np with
  | 0 => o2pressure
  | 1 => st.sump
  | 2 => cdiv st.sump 2
  | 3 =>
    let upper := st.maxp - (st.sump - st.maxp - st.minp)
    let lower := (st.sump - st.maxp - st.minp) - st.minp
    if upper < diff_limit ∧ lower < diff_limit then cdiv st.sump 3
    else if diff_limit ≤ upper ∧ lower < diff_limit then cdiv (st.sump - st.maxp) 2
    else if diff_limit ≤ lower ∧ upper < diff_limit then cdiv (st.sump - st.minp) 2
    else cdiv st.sump 3
  | _ + 4 => 0


/-! ## The deco convergence loop: `calculate_deco_information` (profile.c:996) -/

/-- The variables steering the outer convergence loop of
`calculate_deco_information`: `prev_deco_time`, `ds->deco_time` and
`count_iteration`. -/
structure DecoLoopState where
  prev_deco_time : Int
  deco_time : Int
  count_iteration : Nat
  deriving Repr, DecidableEq

/-- The guard of the outer loop (profile.c:1018):
`abs(prev_deco_time - ds->deco_time) >= 30 && count_iteration < 10`. -/
def decoLoopCond (s : DecoLoopState) : Bool :=
  30 ≤ (s.prev_deco_time - s.deco_time).natAbs && s.count_iteration < 10

/-- Effect of one execution of the loop body on the steering variables
(profile.c:1134-1158).  The inner walk over the dense series only
influences them through the new deco-time estimate, abstracted as
`walk it d` (a function of the iteration number and the current
estimate); for VPM-B outside the planner the body saves the old estimate,
installs the new one and counts the iteration, otherwise it zeroes both
estimates (`prev_deco_time = ds->deco_time = 0`), which falsifies the
guard. -/
def decoLoopBody (vpmb inPlanner : Bool) (walk : Nat → Int → Int)
    (s : DecoLoopState) : DecoLoopState :=
  if vpmb && !inPlanner then
    { prev_deco_time := s.deco_time
      deco_time := walk s.count_iteration s.deco_time
      count_iteration := s.count_iteration + 1 }
  else
    { prev_deco_time := 0, deco_time := 0, count_iteration := s.count_iteration }

/-- Fuel-indexed runner for the outer loop: `none` means the fuel was
exhausted with the guard still true; `some (s, k)` means the loop exited
in state `s` after `k` executions of the body. -/
def decoLoopRun (vpmb inPlanner : Bool) (walk : Nat → Int → Int) :
    Nat → DecoLoopState → Option (DecoLoopState × Nat)
  | 0, s => if decoLoopCond s then none else some (s, 0)
  | fuel + 1, s =>
    if decoLoopCond s then
      match decoLoopRun vpmb inPlanner walk fuel (decoLoopBody vpmb inPlanner walk s) with
      | some (s1, k) => some (s1, k + 1)
      | none => none
    else some (s, 0)

/-- The convergence-loop skeleton of `calculate_deco_information`
(profile.c:996-1159): `prev_deco_time` starts at `10000000`,
`ds->deco_time` starts at `0` outside the planner and at the planner's
value inside it, and the loop is run (11 units of fuel are enough for its
at most 10 body executions plus the final guard test). -/
def calculate_deco_information (vpmb inPlanner : Bool) (plannerDecoTime : Int)
    (walk : Nat → Int → Int) : Option (DecoLoopState × Nat) :=
  let d0 : Int := if inPlanner then plannerDecoTime else 0
  decoLoopRun vpmb inPlanner walk 11
    { prev_deco_time := 10000000, deco_time := d0, count_iteration := 0 }


/-! ## Tissue-state checkpoint/restore (claim about deco.c, not under src/) -/

/-- Modelled from the spec: `struct deco_state` of deco.c/deco.h is not
among the provided sources.  Per §3 it holds per-compartment (16)
inert-gas saturation pressures, a pair of Buhlmann coefficients per
compartment, a running deco-time estimate, a first-ceiling pressure and
(VPM-B only) gradient parameters. -/
structure DecoState where
  tissue_inertgas_saturation : Fin 16 → ℚ
  buehlmann_inertgas_a : Fin 16 → ℚ
  buehlmann_inertgas_b : Fin 16 → ℚ
  deco_time : Int
  first_ceiling_pressure : Int
  vpmb_gradient : Fin 16 → ℚ

/-- Modelled from the spec: `cache_deco_state` (deco.c, not under src/)
checkpoints the live deco state into a freshly allocated snapshot by a
full value copy (§5: "Checkpoint/restore of TissueState is a full value
copy (no aliasing)"). -/
def cache_deco_state (ds : DecoState) : DecoState := ds

/-- Modelled from the spec: `restore_deco_state` (deco.c, not under src/)
copies the snapshot `data` back over the live state, replacing it
wholesale; the live state mutated by the nested simulation and the
VPM-B flag do not influence the restored value (§5). -/
def restore_deco_state (data : DecoState) (mutated : DecoState)
    (keep_vpmb : Bool) : DecoState :=
  data

/-! ## Entry densifier: `populate_plot_entries` (profile.c:510) -/

/-- The fields of a raw `struct sample` that `populate_plot_entries` uses
for entry placement: elapsed time (s) and depth (mm). -/
structure PSample where
  time : Int
  depth : Int
  deriving Repr, DecidableEq

/-- The fields of a `struct event` that `populate_plot_entries` uses:
its elapsed time (s). -/
structure PEvent where
  time : Int
  deriving Repr, DecidableEq

/-- Bookkeeping tag recording which insertion site of
`populate_plot_entries` produced an entry: the two leading calloc-zeroed
entries, a 10-second-raster interpolation entry, an event entry, a real
sample entry, or one of the two terminal padding entries.  The tag is a
ghost field: it does not influence any computed value. -/
inductive EntryKind where
  | lead
  | raster
  | evt
  | smp
  | trail
  deriving Repr, DecidableEq

/-- The fields of a `struct plot_data` entry that the claims about the
entry densifier concern: elapsed time `sec` and `depth`, plus the ghost
provenance tag. -/
structure PlotData where
  sec : Int
  depth : Int
  kind : EntryKind
  deriving Repr, DecidableEq

/-- Modelled from the spec: dive.h's `interpolate` helper is not among
the provided sources; §4.1 calls for linear interpolation of depth
between the two samples.  Integer linear interpolation from `a` to `b`
at fraction `t/tmax` (C integer division). -/
def interpolate (a b t tmax : Int) : Int :=
  a + cdiv ((b - a) * t) tmax

/-- The defensive clamp of profile.c:550-554: the duration `delta` between
the previous accepted time `lasttime` and the next raw sample time; if the
raw timestamps are identical or decreasing, the sample's time is clamped
to `lasttime` and the duration to 1 second, so the interpolation divisor
is never zero.  Returns the (clamped time, clamped delta) pair. -/
def clampTime (lasttime time0 : Int) : Int × Int :=
  if time0 - lasttime ≤ 0 then (lasttime, 1) else (time0, time0 - lasttime)

/-- The `while (ev && ev->time.seconds == 0) ev = ev->next;` loop of
profile.c:539-540: skip events at time 0. -/
def skipZeroEvents : List PEvent → List PEvent
  | [] => []
  | e :: es => if e.time = 0 then skipZeroEvents es else e :: es

/-- An event-insertion loop
(`while (ev && ev->time.seconds < cutoff) { INSERT_ENTRY(...); ev = ev->next; }`,
profile.c:560-563 and 574-577): emit an entry at each leading event whose
time is below `cutoff`, with depth interpolated between the surrounding
samples, and return the emitted entries together with the unconsumed
events. -/
def takeEventsBefore (lastdepth depth lasttime delta cutoff : Int) :
    List PEvent → List PlotData × List PEvent
  | [] => ([], [])
  | e :: es =>
    if e.time < cutoff then
      let r := takeEventsBefore lastdepth depth lasttime delta cutoff es
      (⟨e.time, interpolate lastdepth depth (e.time - lasttime) delta, .evt⟩ :: r.1, r.2)
    else ([], e :: es)

/-- An event-skipping loop
(`while (ev && ev->time.seconds == t) ev = ev->next;`, profile.c:569-570
and 611-612): drop the leading events that happened exactly at time `t`. -/
def skipEventsAt (t : Int) : List PEvent → List PEvent
  | [] => []
  | e :: es => if e.time = t then skipEventsAt t es else e :: es

/-- The intermediate-entry loop of profile.c:555-571
(`for (offset = 10; offset < delta; offset += 10)`): starting at `offset`,
as long as `offset < delta` and `lasttime + offset` does not exceed
`maxtime`, first insert entries for the events before the raster point,
then the time-interpolated raster entry itself, then skip events falling
exactly on it, and continue with `offset + 10`. -/
def rasterLoop (lastdepth depth lasttime delta maxtime : Int) (offset : Int)
    (evs : List PEvent) : List PlotData × List PEvent :=
  if offset < delta then
    if lasttime + offset > maxtime then ([], evs)
    else
      let r1 := takeEventsBefore lastdepth depth lasttime delta (lasttime + offset) evs
      let rasterEntry : PlotData :=
        ⟨lasttime + offset, interpolate lastdepth depth offset delta, .raster⟩
      let evs2 := skipEventsAt (lasttime + offset) r1.2
      let r2 := rasterLoop lastdepth depth lasttime delta maxtime (offset + 10) evs2
      (r1.1 ++ rasterEntry :: r2.1, r2.2)
  else ([], evs)
termination_by (delta - offset).toNat
decreasing_by
  have h1 : offset < delta := by assumption
  omega

/-- Result of processing one raw sample: the entries emitted for it, the
unconsumed events, and the updated `lasttime`/`lastdepth`. -/
structure StepResult where
  out : List PlotData
  evs : List PEvent
  lasttime : Int
  lastdepth : Int
  deriving Repr, DecidableEq

/-- The body of the sample loop of `populate_plot_entries`
(profile.c:541-619) for one sample: clamp the duration, run the
raster/event interleaving loop, insert entries for the remaining events
before the sample's (clamped) time, then the sample entry itself, and skip
events at exactly that time. -/
def processSample (maxtime lasttime lastdepth : Int) (s : PSample)
    (evs : List PEvent) : StepResult :=
  let td := clampTime lasttime s.time
  let time := td.1
  let delta := td.2
  let r1 := rasterLoop lastdepth s.depth lasttime delta maxtime 10 evs
  let r2 := takeEventsBefore lastdepth s.depth lasttime delta time r1.2
  let sampleEntry : PlotData := ⟨time, s.depth, .smp⟩
  let evs3 := skipEventsAt time r2.2
  ⟨r1.1 ++ r2.1 ++ [sampleEntry], evs3, time, s.depth⟩

/-- The sample loop of `populate_plot_entries` (profile.c:541-619):
process each sample in order, stopping early (after emitting the sample's
entry) once a sample's clamped time exceeds `maxtime`.  Returns the
emitted entries, the unconsumed events and the final `lasttime`. -/
def sampleLoop (maxtime : Int) :
    List PSample → Int → Int → List PEvent → List PlotData × List PEvent × Int
  | [], lasttime, _, evs => ([], evs, lasttime)
  | s :: rest, lasttime, lastdepth, evs =>
    let r := processSample maxtime lasttime lastdepth s evs
    if r.lasttime > maxtime then (r.out, r.evs, r.lasttime)
    else
      let r2 := sampleLoop maxtime rest r.lasttime r.lastdepth r.evs
      (r.out ++ r2.1, r2.2.1, r2.2.2)

/-- The trailing-event loop of profile.c:622-631: each remaining event
whose time exceeds the running `lasttime` gets an entry at its exact time
with depth 0, advancing `lasttime`; the rest are dropped.  Returns the
emitted entries and the final `lasttime`. -/
def trailingEvents (lasttime : Int) : List PEvent → List PlotData × Int
  | [] => ([], lasttime)
  | e :: es =>
    if e.time > lasttime then
      let r := trailingEvents e.time es
      (⟨e.time, 0, .evt⟩ :: r.1, r.2)
    else trailingEvents lasttime es

/-- `populate_plot_entries` (profile.c:510-639): the produced dense entry
sequence.  The two leading entries are the calloc-zeroed slots the
function leaves at indices 0 and 1 (`idx = 2`), then the entries of the
sample loop, then trailing-event entries, then the two terminal padding
entries at `lasttime + 1` and `lasttime + 2` (profile.c:633-635).
Allocation is modelled as succeeding; `pi->nr` is the length of the
returned list. -/
def populate_plot_entries (samples : List PSample) (events : List PEvent)
    (maxtime : Int) : List PlotData :=
  let evs := skipZeroEvents events
  let r := sampleLoop maxtime samples 0 0 evs
  let tr := trailingEvents r.2.2 r.2.1
  ⟨0, 0, .lead⟩ :: ⟨0, 0, .lead⟩ :: (r.1 ++ tr.1 ++
    [⟨tr.2 + 1, 0, .trail⟩, ⟨tr.2 + 2, 0, .trail⟩])

/-- The allocation bound of profile.c:528:
`nr = dc->samples + 6 + maxtime / 10 + count_events(dc)`. -/
def plotAllocationBound (samples : List PSample) (events : List PEvent)
    (maxtime : Int) : Nat :=
  samples.length + 6 + (cdiv maxtime 10).toNat + events.length

/-! ## Consumption estimator: `sac_between` / `fill_sac` (profile.c:648, 712) -/

/-- `MAX_CYLINDERS` of dive.h (not among the provided sources): the fixed
upper bound on the number of cylinders, over which profile.c's
per-cylinder loops run.  Its exact value is immaterial to the claims. -/
def MAX_CYLINDERS : Nat := 8

/-- Modelled from the spec: `SURFACE_THRESHOLD` (display.h, not among the
provided sources), the depth in mm below which the diver counts as
surfaced (§4.4 "depth crosses the surface threshold").  Its exact value is
immaterial to the claims. -/
def SURFACE_THRESHOLD : Int := 120

/-- The fields of a `struct plot_data` entry that the consumption
estimator reads: time, depth, the per-cylinder pressure (mbar, 0 = no
reading, the value `GET_PRESSURE(entry, i)` yields) and the entry's SAC
value. -/
structure SacEntry where
  sec : Int
  depth : Int
  pressure : Nat → Int
  sac : Int

/-- Default entry standing for C's out-of-bounds reads; all index
arithmetic below stays in bounds, so it is never reached with meaningful
data. -/
def dfltSacEntry : SacEntry := ⟨0, 0, fun _ => 0, 0⟩

instance : Inhabited SacEntry := ⟨dfltSacEntry⟩

/-- `have_pressures` (profile.c:694-706): clear from the bitmap `gases`
every cylinder bit whose pressure reading at `entry` is absent (zero). -/
def have_pressures (entry : SacEntry) (gases : Nat) : Nat :=
  (List.range MAX_CYLINDERS).foldl
    (fun g i =>
      if g.testBit i ∧ entry.pressure i = 0 then g - 2 ^ i else g)
    gases

/-- The air-use accumulation loop of `sac_between` (profile.c:657-672):
over the cylinders of the bitmap, convert first/last pressure to gas
volume via `gas_volume` (equipment.c, not among the provided sources,
taken as the parameter `gv i p`) and sum only the positive uses. -/
def sacAiruse (gv : Nat → Int → Int) (first last : SacEntry) (gases : Nat) : Int :=
  (List.range MAX_CYLINDERS).foldl
    (fun acc i =>
      if gases.testBit i then
        let cyluse := gv i (first.pressure i) - gv i (last.pressure i)
        if 0 < cyluse then acc + cyluse else acc
      else acc)
    0

/-- The depth-pressure integration loop of `sac_between`
(profile.c:677-684): over each consecutive pair of window entries, the
ambient pressure (in atm, via `depth_to_atm` of dive.c, not among the
provided sources, taken as the parameter `atmOf` applied to the C-rounded
mean depth) times the segment duration, summed as a real (here rational)
number. -/
def pressuretime (atmOf : Int → ℚ) : List SacEntry → ℚ
  | a :: b :: rest =>
    atmOf (cdiv (a.depth + b.depth) 2) * ((b.sec - a.sec : Int) : ℚ) +
      pressuretime atmOf (b :: rest)
  | _ => 0

/-- `sac_between` (profile.c:648-691) applied to the inclusive window of
entries from `first` to `last`: 0 when `first == last` (a singleton
window) or when no cylinder shows positive use; otherwise the total
volume divided by the integrated atmosphere-minutes, rounded to the
nearest integer (`lrint`). -/
def sac_between (gv : Nat → Int → Int) (atmOf : Int → ℚ)
    (window : List SacEntry) (gases : Nat) : Int :=
  match window with
  | [] => 0
  | [_] => 0
  | first :: b :: rest =>
    let last := (b :: rest).getLast (by simp)
    let airuse := sacAiruse gv first last gases
    if airuse = 0 then 0
    else
      let pt := pressuretime atmOf (first :: b :: rest) / 60
      round ((airuse : ℚ) / pt)

/-- The backward walk of `fill_sac` (profile.c:733-746): starting from the
entry index, step to the previous entry while it exists, the diver has not
surfaced on both sides, the previous entry is within `time`, and the set
of cylinders with pressure data is unchanged.  Returns the index of
`first`. -/
def sacBack (pi : List SacEntry) (gases : Nat) (time : Int) : Nat → Nat
  | 0 => 0
  | f + 1 =>
    let prev := pi.getD f dfltSacEntry
    let cur := pi.getD (f + 1) dfltSacEntry
    if prev.depth < SURFACE_THRESHOLD ∧ cur.depth < SURFACE_THRESHOLD then f + 1
    else if prev.sec < time then f + 1
    else if have_pressures prev gases ≠ gases then f + 1
    else sacBack pi gases time f

/-- The forward walk of `fill_sac` (profile.c:749-760): starting from the
index of `first`, step to the next entry while it exists, the diver has
not surfaced on both sides, the next entry is within `time`, and the set
of cylinders with pressure data is unchanged.  Returns the index of
`last`. -/
def sacFwd (pi : List SacEntry) (gases : Nat) (time : Int) (l : Nat) : Nat :=
  if l + 1 < pi.length then
    let nxt := pi.getD (l + 1) dfltSacEntry
    let cur := pi.getD l dfltSacEntry
    if nxt.depth < SURFACE_THRESHOLD ∧ cur.depth < SURFACE_THRESHOLD then l
    else if nxt.sec > time then l
    else if have_pressures nxt gases ≠ gases then l
    else sacFwd pi gases time (l + 1)
  else l
termination_by pi.length - l
decreasing_by
  have h1 : l + 1 < pi.length := by assumption
  omega

/-- `fill_sac` (profile.c:712-764), expressed as the SAC value the entry
at `idx` holds after the call: an already present SAC value is kept; if no
cylinder of the bitmap has pressure data at the entry, nothing is computed
and the entry's value is kept; otherwise the walks select the ~30s-before
/ ~60s-after window and `sac_between` over it is stored. -/
def fill_sac (gv : Nat → Int → Int) (atmOf : Int → ℚ) (pi : List SacEntry)
    (idx : Nat) (gases : Nat) : Int :=
  let entry := pi.getD idx dfltSacEntry
  if entry.sac ≠ 0 then entry.sac
  else
    let g2 := have_pressures entry gases
    if g2 = 0 then entry.sac
    else
      let f := sacBack pi g2 (entry.sec - 30) idx
      let l := sacFwd pi g2 ((pi.getD f dfltSacEntry).sec + 60) f
      sac_between gv atmOf ((pi.drop f).take (l - f + 1)) g2

/-! ## Gas pressure reconstructor: `setup_gas_sensor_pressure` (profile.c:827) -/

/-- `INT_MAX`, the sentinel used for "still in use at the end"
(profile.c:839 and 858). -/
def INT_MAX : Int := 2147483647

/-- The fields of a `struct plot_data` entry that the gas-pressure
reconstructor touches: time and the per-cylinder sensor pressure slot
(`SENSOR_PRESSURE(entry, cyl)`). -/
structure GasEntry where
  sec : Int
  pressure : Nat → Int

/-- Default entry for out-of-bounds list reads (never reached with
meaningful data). -/
def dfltGasEntry : GasEntry := ⟨0, fun _ => 0⟩

instance : Inhabited GasEntry := ⟨dfltGasEntry⟩

/-- The fields of a cylinder that `setup_gas_sensor_pressure` reads:
author-entered start and end pressure (mbar, 0 = missing). -/
structure CylinderInfo where
  start_mbar : Int
  end_mbar : Int
  deriving Repr, DecidableEq

/-- The fields of a "gaschange" event that the reconstructor reads: its
time and explicit cylinder index (`ev->gas.index`, negative = unset). -/
structure GasChangeEvent where
  time : Int
  index : Int
  deriving Repr, DecidableEq

/-- In-place update of the element at position `i` of a list (the model of
a C array store). -/
def listModify {α : Type} : List α → Nat → (α → α) → List α
  | [], _, _ => []
  | a :: as, 0, f => f a :: as
  | a :: as, n + 1, f => a :: listModify as n f

/-- The entry index `add_plot_pressure` (profile.c:811-825) writes to: its
scanning loop leaves `entry` at the first entry whose time is at or after
`time`, or — when no entry qualifies — at the last entry of the series. -/
def plotPressureIndex : List GasEntry → Int → Nat
  | [], _ => 0
  | e :: es, time =>
    if time ≤ e.sec then 0
    else
      match es with
      | [] => 0
      | _ :: _ => plotPressureIndex es time + 1

/-- `add_plot_pressure` (profile.c:811-825): write the pressure `p` into
cylinder `cyl`'s sensor-pressure slot of the selected entry; with an empty
series the function only prints a diagnostic and returns. -/
def add_plot_pressure (entries : List GasEntry) (time : Int) (cyl : Nat)
    (p : Int) : List GasEntry :=
  if entries.isEmpty then entries
  else
    listModify entries (plotPressureIndex entries time)
      (fun e => { e with pressure := Function.update e.pressure cyl p })

/-- The per-cylinder bookkeeping of `setup_gas_sensor_pressure`:
the current cylinder `prev` and the `seen`/`first`/`last` arrays. -/
structure GasScanState where
  prev : Nat
  seen : Nat → Int
  first : Nat → Int
  last : Nat → Int

/-- The gaschange-walking loop of profile.c:841-857: for each gaschange
event with an explicit cylinder index, close the previous cylinder's use
window at the event time, make the event's cylinder current, extend its
window, and record its first-use time if this is the first reference to
it. -/
def scanGaschangeEvents : List GasChangeEvent → GasScanState → GasScanState
  | [], st => st
  | e :: es, st =>
    if e.index < 0 then scanGaschangeEvents es st
    else
      let cyl := e.index.toNat
      let last1 := Function.update st.last st.prev e.time
      let last2 := Function.update last1 cyl e.time
      let st2 : GasScanState :=
        if st.seen cyl = 0 then
          { prev := cyl
            seen := Function.update st.seen cyl 1
            first := Function.update st.first cyl e.time
            last := last2 }
        else
          { prev := cyl, seen := st.seen, first := st.first, last := last2 }
      scanGaschangeEvents es st2

/-- The initial bookkeeping state of profile.c:836-839: `prev` is the
explicit first cylinder (computed by `explicit_first_cylinder` of dive.c,
not among the provided sources, taken as the parameter `prev0`), which is
marked seen; `first` is zero-initialised; every `last` is `INT_MAX`. -/
def initialGasScanState (prev0 : Nat) : GasScanState :=
  { prev := prev0
    seen := Function.update (fun _ => 0) prev0 1
    first := fun _ => 0
    last := fun _ => INT_MAX }

/-- Phase 1 of `setup_gas_sensor_pressure` (profile.c:836-858): scan the
gaschange events from the initial state and finally re-open the last
current cylinder's window (`last[prev] = INT_MAX`). -/
def gasScan (prev0 : Nat) (events : List GasChangeEvent) : GasScanState :=
  let st := scanGaschangeEvents events (initialGasScanState prev0)
  { st with last := Function.update st.last st.prev INT_MAX }

/-- Phase 2 of `setup_gas_sensor_pressure` (profile.c:862-889): mark as
uninteresting (`seen[i] = -1`) every cylinder whose start or end pressure
is missing or whose start equals its end — unconditionally — and
additionally every cylinder not seen on this dive computer but mentioned
by a gaschange event of some dive computer (`has_gaschange_event` over
`for_each_dc`, dive.c, not among the provided sources, taken as the
parameter `mentioned`). -/
def markStep (cyls : Nat → CylinderInfo) (mentioned : Nat → Bool)
    (sn : Nat → Int) (i : Nat) : Nat → Int :=
  let c := cyls i
  if c.start_mbar = 0 ∨ c.end_mbar = 0 ∨ c.start_mbar = c.end_mbar then
    Function.update sn i (-1)
  else if sn i ≠ 0 then sn
  else if mentioned i then Function.update sn i (-1)
  else sn

def markUninteresting (cyls : Nat → CylinderInfo) (mentioned : Nat → Bool)
    (seen : Nat → Int) : Nat → Int :=
  (List.range MAX_CYLINDERS).foldl (markStep cyls mentioned) seen

/-- Phase 3 of `setup_gas_sensor_pressure` (profile.c:892-899): for every
cylinder not marked uninteresting, write its start pressure at its
first-use time and its end pressure at its last-use time via
`add_plot_pressure`. -/
def writeStep (cyls : Nat → CylinderInfo) (st : GasScanState)
    (seenF : Nat → Int) (es : List GasEntry) (i : Nat) : List GasEntry :=
  if 0 ≤ seenF i then
    add_plot_pressure
      (add_plot_pressure es (st.first i) i (cyls i).start_mbar)
      (st.last i) i (cyls i).end_mbar
  else es

def writeCylinderPressures (cyls : Nat → CylinderInfo) (st : GasScanState)
    (seenF : Nat → Int) (entries : List GasEntry) : List GasEntry :=
  (List.range MAX_CYLINDERS).foldl (writeStep cyls st seenF) entries

/-- `setup_gas_sensor_pressure` (profile.c:827-912): the three phases in
order.  (The final secondary-sensor walk calls
`populate_secondary_sensor_data`, which is an empty stub in profile.c and
is omitted.) -/
def setup_gas_sensor_pressure (cyls : Nat → CylinderInfo)
    (mentioned : Nat → Bool) (prev0 : Nat) (events : List GasChangeEvent)
    (entries : List GasEntry) : List GasEntry :=
  let st := gasScan prev0 events
  let seenF := markUninteresting cyls mentioned st.seen
  writeCylinderPressures cyls st seenF entries

/-- The exclusion rule as the claim words it: a cylinder is excluded
exactly when no gas-change event references it and its start pressure
equals its end pressure (or either is missing).  This definition follows
the spec, to be compared against the code's behaviour. -/
def excluded_spec (cyls : Nat → CylinderInfo) (events : List GasChangeEvent)
    (i : Nat) : Prop :=
  (∀ e ∈ events, e.index ≠ (i : Int)) ∧
    ((cyls i).start_mbar = (cyls i).end_mbar ∨ (cyls i).start_mbar = 0 ∨
      (cyls i).end_mbar = 0)

instance (cyls : Nat → CylinderInfo) (events : List GasChangeEvent) (i : Nat) :
    Decidable (excluded_spec cyls events i) := by
  unfold excluded_spec
  infer_instance

/-! ## Helpers for reasoning about entry sequences -/

/-- The times of a list of plot entries. -/
def secs (l : List PlotData) : List Int := l.map PlotData.sec

/-- The last element of a list of times, with `p` standing for the time of
the entry preceding the list. -/
def lastD (p : Int) : List Int → Int
  | [] => p
  | x :: xs => lastD x xs

/-- Number of entries of a given provenance tag. -/
def countKind (k : EntryKind) (l : List PlotData) : Nat :=
  l.countP (fun x => decide (x.kind = k))

/-! # Theorems -/

/-! ## C2 — checkpoint / nested simulation / restore round trip -/

/-- C2: for every tissue/deco state, the checkpoint (`cache_deco_state`),
nested `calculate_ndl_tts` simulation (an arbitrary state transformation
`sim`), restore (`restore_deco_state`) sequence of profile.c:1122-1131
leaves the deco state identical to its pre-simulation snapshot, so the
nested simulation never affects the authoritative forward trajectory. -/
theorem checkpoint_restore_identity (ds : DecoState)
    (sim : DecoState → DecoState) (keep_vpmb : Bool) :
    restore_deco_state (cache_deco_state ds) (sim (cache_deco_state ds))
      keep_vpmb = ds := rfl

/-! ## C3 — the three-sensor voting logic -/

/-- C3 (code bug): with the three valid sensor readings 1000, 1000 and
1050 mbar both extreme-vs-middle differences (50 and 0 mbar) lie within
the 100 mbar tolerance, so the voting rule of the specification (and of
the code's own comments) returns the three-way average 1016; the code's
second test `2 * minp - sump + maxp` is a non-zero test instead of a
tolerance comparison, so `calculate_ccr_po2` discards the minimum and
returns 1025. -/
theorem calculate_ccr_po2_divergence :
    calculate_ccr_po2 [1000, 1000, 1050] 0 = 1025 ∧
      ccr_po2_voting_spec [1000, 1000, 1050] 0 = 1016 ∧
      calculate_ccr_po2 [1000, 1000, 1050] 0 ≠
        ccr_po2_voting_spec [1000, 1000, 1050] 0 := by
  refine ⟨by decide, by decide, by decide⟩

/-! ## C8 — the non-monotonic-timestamp clamp -/

/-- C8: whenever two consecutive raw samples have identical or decreasing
timestamps, `clampTime` — the duration computation every interpolation of
`processSample` divides by — clamps the duration to 1 second and the later
sample's time to the earlier one; the divisor is therefore never zero and
the sample is still processed (its entry is emitted) rather than
rejected. -/
theorem clampTime_defensive :
    (∀ lasttime time0 : Int, 1 ≤ (clampTime lasttime time0).2) ∧
    (∀ lasttime time0 : Int, time0 ≤ lasttime →
      clampTime lasttime time0 = (lasttime, 1)) ∧
    (∀ (maxtime lasttime lastdepth : Int) (s : PSample) (evs : List PEvent),
      (processSample maxtime lasttime lastdepth s evs).out ≠ [] ∧
      (s.time ≤ lasttime →
        (processSample maxtime lasttime lastdepth s evs).lasttime = lasttime)) := by
  refine ⟨?_, ?_, ?_⟩
  · intro lasttime time0
    unfold clampTime
    split <;> omega
  · intro lasttime time0 h
    unfold clampTime
    rw [if_pos (by omega)]
  · intro maxtime lasttime lastdepth s evs
    constructor
    · simp [processSample]
    · intro h
      show (clampTime lasttime s.time).1 = lasttime
      unfold clampTime
      rw [if_pos (by omega)]

/-- Witness for C8 at a concrete malformed pair of timestamps
(second sample at 40 s after one at 50 s). -/
theorem clampTime_defensive_witness :
    1 ≤ (clampTime 50 40).2 ∧ clampTime 50 40 = (50, 1) ∧
      (processSample 1000 50 18000 ⟨40, 17000⟩ []).out ≠ [] ∧
      (processSample 1000 50 18000 ⟨40, 17000⟩ []).lasttime = 50 :=
  ⟨clampTime_defensive.1 50 40, clampTime_defensive.2.1 50 40 (by decide),
    (clampTime_defensive.2.2 1000 50 18000 ⟨40, 17000⟩ []).1,
    (clampTime_defensive.2.2 1000 50 18000 ⟨40, 17000⟩ []).2 (by decide)⟩

/-! ## C10 — the event-name registry -/

/-- `strncmp` over the new name's full length is zero exactly when the new
name is a prefix of the registered one (for NUL-free C strings). -/
theorem strncmp_len_eq_zero_iff (a : List Nat) (ha : ∀ c ∈ a, c ≠ 0) :
    ∀ b : List Nat, (strncmp a b a.length = 0 ↔ ∃ t, a ++ t = b) := by
  induction a with
  | nil =>
    intro b
    simp [strncmp]
  | cons c cs ih =>
    intro b
    have hc : c ≠ 0 := ha c (by simp)
    have ha' : ∀ x ∈ cs, x ≠ 0 := fun x hx => ha x (by simp [hx])
    cases b with
    | nil =>
      simp only [List.length_cons, strncmp]
      constructor
      · intro hz
        exfalso
        have : (c : Int) = 0 := hz
        omega
      · rintro ⟨t, ht⟩
        simp at ht
    | cons d ds =>
      simp only [List.length_cons, strncmp]
      by_cases hcd : c = d
      · subst hcd
        rw [if_pos rfl]
        rw [ih ha' ds]
        constructor
        · rintro ⟨t, ht⟩
          exact ⟨t, by simp [ht]⟩
        · rintro ⟨t, ht⟩
          refine ⟨t, ?_⟩
          simpa using ht
      · rw [if_neg hcd]
        constructor
        · intro hz
          exfalso
          have : (c : Int) - (d : Int) = 0 := hz
          omega
        · rintro ⟨t, ht⟩
          exfalso
          apply hcd
          have ht' : c :: (cs ++ t) = d :: ds := by simpa using ht
          exact (List.cons_eq_cons.mp ht').1

/-- Unfolding of `remember_event` on a non-NULL name. -/
theorem remember_event_some (registry : List EvSelect) (name : List Nat) :
    remember_event registry (some name) =
      if name.length = 0 then registry
      else if registry.any (fun e => strncmp name e.ev_name name.length = 0) then
        registry
      else registry ++ [⟨name, true⟩] := rfl

/-- C10: `remember_event` leaves the registry unchanged for a NULL name,
an empty name, or a name that is a prefix of an already-registered name
(the `strncmp` comparison uses only the new name's length); otherwise it
appends the name exactly once, with display flag `plot_ev = true`.  The
hypothesis says the name is a NUL-free C string. -/
theorem remember_event_correct (registry : List EvSelect) (name : List Nat)
    (hnz : ∀ c ∈ name, c ≠ 0) :
    remember_event registry none = registry ∧
    (name = [] → remember_event registry (some name) = registry) ∧
    ((∃ e ∈ registry, ∃ t, name ++ t = e.ev_name) →
      remember_event registry (some name) = registry) ∧
    (name ≠ [] → (∀ e ∈ registry, ¬ ∃ t, name ++ t = e.ev_name) →
      remember_event registry (some name) = registry ++ [⟨name, true⟩] ∧
      (remember_event registry (some name)).countP
        (fun e => e.ev_name == name) = 1) := by
  refine ⟨rfl, ?_, ?_, ?_⟩
  · intro h
    subst h
    rw [remember_event_some]
    simp
  · rintro ⟨e, he, t, ht⟩
    rw [remember_event_some]
    by_cases hlen : name.length = 0
    · rw [if_pos hlen]
    · rw [if_neg hlen, if_pos ?_]
      rw [List.any_eq_true]
      refine ⟨e, he, ?_⟩
      simp only [decide_eq_true_eq]
      exact ((strncmp_len_eq_zero_iff name hnz e.ev_name).mpr ⟨t, ht⟩)
  · intro hne hpref
    have hlen : ¬ name.length = 0 := by
      intro h
      exact hne (List.length_eq_zero.mp h)
    have hany : registry.any (fun e => strncmp name e.ev_name name.length = 0) = false := by
      rw [List.any_eq_false]
      intro e he
      simp only [decide_eq_true_eq]
      intro hz
      exact hpref e he ((strncmp_len_eq_zero_iff name hnz e.ev_name).mp hz)
    have heq : remember_event registry (some name) = registry ++ [⟨name, true⟩] := by
      rw [remember_event_some, if_neg hlen, if_neg (by rw [hany]; exact Bool.false_ne_true)]
    refine ⟨heq, ?_⟩
    rw [heq, List.countP_append]
    have h0 : registry.countP (fun e => e.ev_name == name) = 0 := by
      rw [List.countP_eq_zero]
      intro e he
      simp only [beq_iff_eq]
      intro hev
      exact hpref e he ⟨[], by simp [hev]⟩
    rw [h0]
    simp

/-- Witness for C10: the registry holding "gas" (bytes 103,97,115); the
name "sp" (115,112) is NUL-free, non-empty and no prefix of "gas", so it
is appended once with its display flag set. -/
theorem remember_event_correct_witness :
    remember_event [⟨[103, 97, 115], true⟩] (some [115, 112]) =
      [⟨[103, 97, 115], true⟩] ++ [⟨[115, 112], true⟩] ∧
    (remember_event [⟨[103, 97, 115], true⟩] (some [115, 112])).countP
      (fun e => e.ev_name == [115, 112]) = 1 :=
  (remember_event_correct [⟨[103, 97, 115], true⟩] [115, 112]
    (by decide)).2.2.2 (by decide)
    (by
      intro e he
      simp only [List.mem_singleton] at he
      subst he
      rintro ⟨t, ht⟩
      simp at ht)

/-! ## C1 — termination of the deco convergence loop -/

/-- If the guard is already false, the runner exits immediately with zero
body executions, whatever the fuel. -/
theorem decoLoopRun_of_cond_false (vpmb inPlanner : Bool)
    (walk : Nat → Int → Int) (fuel : Nat) (s : DecoLoopState)
    (h : decoLoopCond s = false) :
    decoLoopRun vpmb inPlanner walk fuel s = some (s, 0) := by
  cases fuel with
  | zero => simp [decoLoopRun, h]
  | succ n => simp [decoLoopRun, h]

/-- Totality of the runner: with enough fuel it always exits, within the
iteration budget, with a falsified guard, and with exactly one body
execution when the VPM-B-outside-planner branch is not taken and the
guard held initially. -/
theorem decoLoopRun_total (vpmb inPlanner : Bool) (walk : Nat → Int → Int) :
    ∀ (fuel : Nat) (s : DecoLoopState), 11 ≤ fuel + s.count_iteration →
    s.count_iteration ≤ 10 →
    ∃ s1 k, decoLoopRun vpmb inPlanner walk fuel s = some (s1, k) ∧
      k + s.count_iteration ≤ 10 ∧ decoLoopCond s1 = false ∧
      ((vpmb && !inPlanner) = false → decoLoopCond s = true → k = 1) := by
  intro fuel
  induction fuel with
  | zero =>
    intro s h1 h2
    omega
  | succ n ih =>
    intro s h1 h2
    by_cases hc : decoLoopCond s = true
    · have hcount : s.count_iteration < 10 := by
        have hc' := hc
        simp only [decoLoopCond, Bool.and_eq_true, decide_eq_true_eq] at hc'
        exact hc'.2
      by_cases hv : (vpmb && !inPlanner) = true
      · have hbody : decoLoopBody vpmb inPlanner walk s =
            { prev_deco_time := s.deco_time
              deco_time := walk s.count_iteration s.deco_time
              count_iteration := s.count_iteration + 1 } := by
          unfold decoLoopBody
          rw [if_pos hv]
        obtain ⟨s1, k, hrun, hk, hcond, _⟩ :=
          ih (decoLoopBody vpmb inPlanner walk s)
            (by rw [hbody]; show 11 ≤ n + (s.count_iteration + 1); omega)
            (by rw [hbody]; show s.count_iteration + 1 ≤ 10; omega)
        refine ⟨s1, k + 1, ?_, ?_, hcond, ?_⟩
        · unfold decoLoopRun
          rw [if_pos hc, hrun]
        · rw [hbody] at hk
          have hk2 : k + (s.count_iteration + 1) ≤ 10 := hk
          omega
        · intro hfalse
          rw [hfalse] at hv
          cases hv
      · have hv' : (vpmb && !inPlanner) = false := by
          rw [Bool.not_eq_true] at hv
          exact hv
        have hbody : decoLoopBody vpmb inPlanner walk s =
            { prev_deco_time := 0, deco_time := 0,
              count_iteration := s.count_iteration } := by
          unfold decoLoopBody
          rw [if_neg hv]
        have hcondb : decoLoopCond (decoLoopBody vpmb inPlanner walk s) = false := by
          rw [hbody]
          simp [decoLoopCond]
        refine ⟨decoLoopBody vpmb inPlanner walk s, 1, ?_, ?_, hcondb, fun _ _ => rfl⟩
        · unfold decoLoopRun
          rw [if_pos hc,
            decoLoopRun_of_cond_false vpmb inPlanner walk n _ hcondb]
        · omega
    · rw [Bool.not_eq_true] at hc
      refine ⟨s, 0, decoLoopRun_of_cond_false vpmb inPlanner walk _ s hc, by omega,
        hc, ?_⟩
      intro _ hcond
      rw [hcond] at hc
      cases hc

/-- C1: for every deco model selection, planner state and inner-walk
behaviour, the outer convergence loop of `calculate_deco_information`
terminates: it exits as soon as its guard fails — that is, when the
magnitude of the change between successive deco-time estimates drops
below 30 s or the 10-iteration cap is reached — after at most 10 body
executions, and for the non-VPM-B (Buhlmann-style) model the body runs
exactly once.  The hypothesis (vacuous outside the planner, where
`deco_time` starts at 0) excludes a planner-supplied initial estimate
within 30 s of the `prev_deco_time` sentinel 10000000, which would end
the loop before a single body execution. -/
theorem calculate_deco_information_converges (vpmb inPlanner : Bool)
    (plannerDecoTime : Int) (walk : Nat → Int → Int)
    (hp : inPlanner = true → 30 ≤ ((10000000 : Int) - plannerDecoTime).natAbs) :
    ∃ s1 k, calculate_deco_information vpmb inPlanner plannerDecoTime walk =
        some (s1, k) ∧
      k ≤ 10 ∧ decoLoopCond s1 = false ∧ (vpmb = false → k = 1) := by
  obtain ⟨s1, k, hrun, hk, hcond, hone⟩ :=
    decoLoopRun_total vpmb inPlanner walk 11
      { prev_deco_time := 10000000
        deco_time := if inPlanner then plannerDecoTime else 0
        count_iteration := 0 }
      (by show 11 ≤ 11 + 0; omega) (by show 0 ≤ 10; omega)
  have hk2 : k + 0 ≤ 10 := hk
  refine ⟨s1, k, hrun, by omega, hcond, ?_⟩
  intro hvf
  apply hone (by rw [hvf]; rfl)
  simp only [decoLoopCond, Bool.and_eq_true, decide_eq_true_eq]
  refine ⟨?_, by show (0 : Nat) < 10; omega⟩
  show 30 ≤ ((10000000 : Int) - (if inPlanner = true then plannerDecoTime else 0)).natAbs
  by_cases hpl : inPlanner = true
  · rw [if_pos hpl]
    exact hp hpl
  · rw [if_neg hpl]
    norm_num

/-- Witness for C1: Buhlmann model (`vpmb = false`) outside the planner
with an arbitrary inner walk; the loop exits after exactly one body
execution. -/
theorem calculate_deco_information_converges_witness :
    ∃ s1 k, calculate_deco_information false false 0 (fun _ d => d + 100) =
        some (s1, k) ∧
      k ≤ 10 ∧ decoLoopCond s1 = false ∧ (false = false → k = 1) :=
  calculate_deco_information_converges false false 0 (fun _ d => d + 100)
    (by intro h; cases h)

/-! ## Lemmas about `secs`, `lastD` and chains of times -/

@[simp]
theorem secs_nil : secs [] = [] := rfl

@[simp]
theorem secs_cons (x : PlotData) (l : List PlotData) :
    secs (x :: l) = x.sec :: secs l := rfl

@[simp]
theorem secs_append (l1 l2 : List PlotData) :
    secs (l1 ++ l2) = secs l1 ++ secs l2 := List.map_append _ _ _

@[simp]
theorem lastD_nil (p : Int) : lastD p [] = p := rfl

@[simp]
theorem lastD_cons (p x : Int) (xs : List Int) :
    lastD p (x :: xs) = lastD x xs := rfl

theorem lastD_append (p : Int) (l1 l2 : List Int) :
    lastD p (l1 ++ l2) = lastD (lastD p l1) l2 := by
  induction l1 generalizing p with
  | nil => simp
  | cons x xs ih => simp [ih]

theorem chainLE_append (p : Int) (l1 l2 : List Int)
    (h1 : List.Chain (· ≤ ·) p l1) (h2 : List.Chain (· ≤ ·) (lastD p l1) l2) :
    List.Chain (· ≤ ·) p (l1 ++ l2) := by
  induction l1 generalizing p with
  | nil => simpa using h2
  | cons x xs ih =>
    rw [List.chain_cons] at h1
    exact List.Chain.cons h1.1 (ih x h1.2 (by simpa using h2))

theorem chainLE_le_lastD (p : Int) (l : List Int)
    (h : List.Chain (· ≤ ·) p l) : p ≤ lastD p l := by
  induction l generalizing p with
  | nil => simp
  | cons x xs ih =>
    rw [List.chain_cons] at h
    exact le_trans h.1 (by simpa using ih x h.2)

theorem chainLE_mem_le (p : Int) (l : List Int) (h : List.Chain (· ≤ ·) p l) :
    ∀ x ∈ l, x ≤ lastD p l := by
  induction l generalizing p with
  | nil => simp
  | cons y ys ih =>
    rw [List.chain_cons] at h
    intro x hx
    rcases List.mem_cons.mp hx with rfl | hx'
    · simpa using chainLE_le_lastD x ys h.2
    · simpa using ih y h.2 x hx'

theorem chainLE_mono (p q : Int) (l : List Int) (hq : q ≤ p)
    (h : List.Chain (· ≤ ·) p l) : List.Chain (· ≤ ·) q l := by
  cases l with
  | nil => exact List.Chain.nil
  | cons x xs =>
    rw [List.chain_cons] at h ⊢
    exact ⟨le_trans hq h.1, h.2⟩

theorem lastD_le (p c : Int) (l : List Int) (hp : p ≤ c)
    (hl : ∀ x ∈ l, x ≤ c) : lastD p l ≤ c := by
  induction l generalizing p with
  | nil => simpa
  | cons x xs ih =>
    simp only [lastD_cons]
    exact ih x (hl x (by simp)) (fun y hy => hl y (by simp [hy]))

/-! ## Lemmas about the event-consuming loops -/

theorem takeEventsBefore_length (ld d lt dl cutoff : Int) :
    ∀ evs : List PEvent,
      (takeEventsBefore ld d lt dl cutoff evs).1.length +
        (takeEventsBefore ld d lt dl cutoff evs).2.length = evs.length := by
  intro evs
  induction evs with
  | nil => simp [takeEventsBefore]
  | cons e es ih =>
    by_cases h : e.time < cutoff
    · simp only [takeEventsBefore, if_pos h, List.length_cons]
      omega
    · simp [takeEventsBefore, if_neg h]

theorem takeEventsBefore_kind (ld d lt dl cutoff : Int) :
    ∀ evs : List PEvent, ∀ x ∈ (takeEventsBefore ld d lt dl cutoff evs).1,
      x.kind = .evt := by
  intro evs
  induction evs with
  | nil => simp [takeEventsBefore]
  | cons e es ih =>
    by_cases h : e.time < cutoff
    · simp only [takeEventsBefore, if_pos h]
      intro x hx
      rcases List.mem_cons.mp hx with rfl | hx'
      · rfl
      · exact ih x hx'
    · simp [takeEventsBefore, if_neg h]

theorem takeEventsBefore_sec_lt (ld d lt dl cutoff : Int) :
    ∀ evs : List PEvent, ∀ x ∈ (takeEventsBefore ld d lt dl cutoff evs).1,
      x.sec < cutoff := by
  intro evs
  induction evs with
  | nil => simp [takeEventsBefore]
  | cons e es ih =>
    by_cases h : e.time < cutoff
    · simp only [takeEventsBefore, if_pos h]
      intro x hx
      rcases List.mem_cons.mp hx with rfl | hx'
      · exact h
      · exact ih x hx'
    · simp [takeEventsBefore, if_neg h]

theorem takeEventsBefore_chain (ld d lt dl cutoff : Int) :
    ∀ (evs : List PEvent) (p : Int),
      List.Pairwise (fun a b => a.time ≤ b.time) evs →
      (∀ e ∈ evs, p ≤ e.time) →
      List.Chain (· ≤ ·) p (secs (takeEventsBefore ld d lt dl cutoff evs).1) := by
  intro evs
  induction evs with
  | nil =>
    intro p _ _
    simp [takeEventsBefore]
  | cons e es ih =>
    intro p hs hlb
    rw [List.pairwise_cons] at hs
    by_cases h : e.time < cutoff
    · simp only [takeEventsBefore, if_pos h, secs_cons]
      refine List.Chain.cons (hlb e (by simp)) ?_
      exact ih e.time hs.2 hs.1
    · simp [takeEventsBefore, if_neg h]

theorem takeEventsBefore_rest_pairwise (ld d lt dl cutoff : Int) :
    ∀ evs : List PEvent,
      List.Pairwise (fun a b => a.time ≤ b.time) evs →
      List.Pairwise (fun a b => a.time ≤ b.time)
        (takeEventsBefore ld d lt dl cutoff evs).2 := by
  intro evs
  induction evs with
  | nil =>
    intro _
    simp [takeEventsBefore]
  | cons e es ih =>
    intro hs
    rw [List.pairwise_cons] at hs
    by_cases h : e.time < cutoff
    · simp only [takeEventsBefore, if_pos h]
      exact ih hs.2
    · simp only [takeEventsBefore, if_neg h]
      exact List.pairwise_cons.mpr hs

theorem takeEventsBefore_rest_ge (ld d lt dl cutoff : Int) :
    ∀ evs : List PEvent,
      List.Pairwise (fun a b => a.time ≤ b.time) evs →
      ∀ e ∈ (takeEventsBefore ld d lt dl cutoff evs).2, cutoff ≤ e.time := by
  intro evs
  induction evs with
  | nil =>
    intro _
    simp [takeEventsBefore]
  | cons e es ih =>
    intro hs
    rw [List.pairwise_cons] at hs
    by_cases h : e.time < cutoff
    · simp only [takeEventsBefore, if_pos h]
      exact ih hs.2
    · simp only [takeEventsBefore, if_neg h]
      intro x hx
      rcases List.mem_cons.mp hx with rfl | hx'
      · omega
      · exact le_trans (by omega) (hs.1 x hx')

theorem takeEventsBefore_rest_lb (ld d lt dl cutoff p : Int) :
    ∀ evs : List PEvent, (∀ e ∈ evs, p ≤ e.time) →
      ∀ e ∈ (takeEventsBefore ld d lt dl cutoff evs).2, p ≤ e.time := by
  intro evs
  induction evs with
  | nil =>
    intro _
    simp [takeEventsBefore]
  | cons e es ih =>
    intro hlb
    by_cases h : e.time < cutoff
    · simp only [takeEventsBefore, if_pos h]
      exact ih (fun x hx => hlb x (by simp [hx]))
    · simp only [takeEventsBefore, if_neg h]
      exact hlb

theorem skipEventsAt_pairwise (t : Int) :
    ∀ evs : List PEvent,
      List.Pairwise (fun a b => a.time ≤ b.time) evs →
      List.Pairwise (fun a b => a.time ≤ b.time) (skipEventsAt t evs) := by
  intro evs
  induction evs with
  | nil =>
    intro _
    simp [skipEventsAt]
  | cons e es ih =>
    intro hs
    rw [List.pairwise_cons] at hs
    by_cases h : e.time = t
    · simp only [skipEventsAt, if_pos h]
      exact ih hs.2
    · simp only [skipEventsAt, if_neg h]
      exact List.pairwise_cons.mpr hs

theorem skipEventsAt_gt (t : Int) :
    ∀ evs : List PEvent,
      List.Pairwise (fun a b => a.time ≤ b.time) evs →
      (∀ e ∈ evs, t ≤ e.time) →
      ∀ e ∈ skipEventsAt t evs, t < e.time := by
  intro evs
  induction evs with
  | nil =>
    intro _ _
    simp [skipEventsAt]
  | cons e es ih =>
    intro hs hlb
    rw [List.pairwise_cons] at hs
    by_cases h : e.time = t
    · simp only [skipEventsAt, if_pos h]
      exact ih hs.2 (fun x hx => hlb x (by simp [hx]))
    · simp only [skipEventsAt, if_neg h]
      intro x hx
      rcases List.mem_cons.mp hx with rfl | hx'
      · have := hlb x (by simp)
        omega
      · have h1 : t ≤ e.time := hlb e (by simp)
        have h2 : t ≠ e.time := fun hh => h hh.symm
        exact lt_of_lt_of_le (by omega) (hs.1 x hx')

theorem skipEventsAt_length (t : Int) :
    ∀ evs : List PEvent, (skipEventsAt t evs).length ≤ evs.length := by
  intro evs
  induction evs with
  | nil => simp [skipEventsAt]
  | cons e es ih =>
    by_cases h : e.time = t
    · simp only [skipEventsAt, if_pos h]
      exact le_trans ih (by simp)
    · simp [skipEventsAt, if_neg h]

theorem skipZeroEvents_eq (evs : List PEvent) :
    skipZeroEvents evs = skipEventsAt 0 evs := by
  induction evs with
  | nil => rfl
  | cons e es ih => simp [skipZeroEvents, skipEventsAt, ih]

/-! ## Lemmas about the raster loop -/

theorem rasterLoop_eq_break (ld d lt dl mx offset : Int) (evs : List PEvent)
    (h1 : offset < dl) (h2 : lt + offset > mx) :
    rasterLoop ld d lt dl mx offset evs = ([], evs) := by
  rw [rasterLoop.eq_def, if_pos h1, if_pos h2]

theorem rasterLoop_eq_stop (ld d lt dl mx offset : Int) (evs : List PEvent)
    (h1 : ¬ offset < dl) :
    rasterLoop ld d lt dl mx offset evs = ([], evs) := by
  rw [rasterLoop.eq_def, if_neg h1]

theorem rasterLoop_eq_step (ld d lt dl mx offset : Int) (evs : List PEvent)
    (h1 : offset < dl) (h2 : ¬ lt + offset > mx) :
    rasterLoop ld d lt dl mx offset evs =
      ((takeEventsBefore ld d lt dl (lt + offset) evs).1 ++
        ⟨lt + offset, interpolate ld d offset dl, .raster⟩ ::
          (rasterLoop ld d lt dl mx (offset + 10)
            (skipEventsAt (lt + offset)
              (takeEventsBefore ld d lt dl (lt + offset) evs).2)).1,
       (rasterLoop ld d lt dl mx (offset + 10)
         (skipEventsAt (lt + offset)
           (takeEventsBefore ld d lt dl (lt + offset) evs).2)).2) := by
  rw [rasterLoop.eq_def, if_pos h1, if_neg h2]

theorem rasterLoop_step_fst (ld d lt dl mx offset : Int) (evs : List PEvent)
    (h1 : offset < dl) (h2 : ¬ lt + offset > mx) :
    (rasterLoop ld d lt dl mx offset evs).1 =
      (takeEventsBefore ld d lt dl (lt + offset) evs).1 ++
        ⟨lt + offset, interpolate ld d offset dl, .raster⟩ ::
          (rasterLoop ld d lt dl mx (offset + 10)
            (skipEventsAt (lt + offset)
              (takeEventsBefore ld d lt dl (lt + offset) evs).2)).1 := by
  rw [rasterLoop_eq_step ld d lt dl mx offset evs h1 h2]

theorem rasterLoop_step_snd (ld d lt dl mx offset : Int) (evs : List PEvent)
    (h1 : offset < dl) (h2 : ¬ lt + offset > mx) :
    (rasterLoop ld d lt dl mx offset evs).2 =
      (rasterLoop ld d lt dl mx (offset + 10)
        (skipEventsAt (lt + offset)
          (takeEventsBefore ld d lt dl (lt + offset) evs).2)).2 := by
  rw [rasterLoop_eq_step ld d lt dl mx offset evs h1 h2]

theorem rasterLoop_chain (ld d lt dl mx : Int) (offset : Int) (evs : List PEvent) :
    ∀ p : Int,
      List.Pairwise (fun a b => a.time ≤ b.time) evs →
      (∀ e ∈ evs, p ≤ e.time) → p ≤ lt + offset →
      List.Chain (· ≤ ·) p (secs (rasterLoop ld d lt dl mx offset evs).1) ∧
      List.Pairwise (fun a b => a.time ≤ b.time)
        (rasterLoop ld d lt dl mx offset evs).2 ∧
      (∀ e ∈ (rasterLoop ld d lt dl mx offset evs).2,
        lastD p (secs (rasterLoop ld d lt dl mx offset evs).1) ≤ e.time) ∧
      (∀ x ∈ (rasterLoop ld d lt dl mx offset evs).1, x.sec < lt + dl) := by
  induction offset, evs using rasterLoop.induct ld d lt dl mx with
  | case1 offset evs h1 h2 =>
    intro p hs hlb hple
    rw [rasterLoop_eq_break ld d lt dl mx offset evs h1 h2]
    exact ⟨List.Chain.nil, hs, by simpa using hlb, by simp⟩
  | case2 offset evs h1 h2 r1 evs2 ih =>
    intro p hs hlb hple
    rw [rasterLoop_eq_step ld d lt dl mx offset evs h1 h2]
    have hr1chain : List.Chain (· ≤ ·) p
        (secs (takeEventsBefore ld d lt dl (lt + offset) evs).1) :=
      takeEventsBefore_chain ld d lt dl (lt + offset) evs p hs hlb
    have hr1lt : ∀ x ∈ (takeEventsBefore ld d lt dl (lt + offset) evs).1,
        x.sec < lt + offset :=
      takeEventsBefore_sec_lt ld d lt dl (lt + offset) evs
    have hr1rest_pw : List.Pairwise (fun a b => a.time ≤ b.time)
        (takeEventsBefore ld d lt dl (lt + offset) evs).2 :=
      takeEventsBefore_rest_pairwise ld d lt dl (lt + offset) evs hs
    have hr1rest_ge : ∀ e ∈ (takeEventsBefore ld d lt dl (lt + offset) evs).2,
        lt + offset ≤ e.time :=
      takeEventsBefore_rest_ge ld d lt dl (lt + offset) evs hs
    have hevs2pw : List.Pairwise (fun a b => a.time ≤ b.time)
        (skipEventsAt (lt + offset)
          (takeEventsBefore ld d lt dl (lt + offset) evs).2) :=
      skipEventsAt_pairwise (lt + offset) _ hr1rest_pw
    have hevs2gt : ∀ e ∈ skipEventsAt (lt + offset)
        (takeEventsBefore ld d lt dl (lt + offset) evs).2, lt + offset < e.time :=
      skipEventsAt_gt (lt + offset) _ hr1rest_pw hr1rest_ge
    obtain ⟨ihchain, ihpw, ihrest, ihlt⟩ :=
      ih (lt + offset) hevs2pw (fun e he => le_of_lt (hevs2gt e he)) (by omega)
    have hlastle : lastD p
        (secs (takeEventsBefore ld d lt dl (lt + offset) evs).1) ≤ lt + offset :=
      lastD_le p (lt + offset) _ hple
        (by
          intro x hx
          obtain ⟨y, hy, rfl⟩ := List.mem_map.mp hx
          exact le_of_lt (hr1lt y hy))
    refine ⟨?_, ihpw, ?_, ?_⟩
    · rw [secs_append, secs_cons]
      refine chainLE_append p _ _ hr1chain ?_
      exact List.Chain.cons hlastle ihchain
    · intro e he
      rw [secs_append, secs_cons, lastD_append, lastD_cons]
      exact ihrest e he
    · intro x hx
      rcases List.mem_append.mp hx with hx1 | hx2
      · exact lt_trans (hr1lt x hx1) (by omega)
      · rcases List.mem_cons.mp hx2 with rfl | hx3
        · show lt + offset < lt + dl
          omega
        · exact ihlt x hx3
  | case3 offset evs h1 =>
    intro p hs hlb hple
    rw [rasterLoop_eq_stop ld d lt dl mx offset evs h1]
    exact ⟨List.Chain.nil, hs, by simpa using hlb, by simp⟩

theorem countKind_append (k : EntryKind) (l1 l2 : List PlotData) :
    countKind k (l1 ++ l2) = countKind k l1 + countKind k l2 :=
  List.countP_append _ _ _

theorem countKind_cons (k : EntryKind) (x : PlotData) (l : List PlotData) :
    countKind k (x :: l) = countKind k l + if x.kind = k then 1 else 0 := by
  simp only [countKind, List.countP_cons]
  by_cases h : x.kind = k
  · simp [h]
  · simp [h]

theorem countKind_nil (k : EntryKind) : countKind k [] = 0 := rfl

theorem countKind_eq_zero (k : EntryKind) (l : List PlotData)
    (h : ∀ x ∈ l, ¬ x.kind = k) : countKind k l = 0 := by
  rw [countKind, List.countP_eq_zero]
  intro x hx
  simpa using h x hx

theorem countKind_le_length (k : EntryKind) (l : List PlotData) :
    countKind k l ≤ l.length :=
  List.countP_le_length _

theorem rasterLoop_count (ld d lt dl mx : Int) (offset : Int) (evs : List PEvent) :
    countKind .evt (rasterLoop ld d lt dl mx offset evs).1 +
      (rasterLoop ld d lt dl mx offset evs).2.length ≤ evs.length ∧
    (∀ x ∈ (rasterLoop ld d lt dl mx offset evs).1,
      x.kind = .evt ∨ x.kind = .raster) := by
  induction offset, evs using rasterLoop.induct ld d lt dl mx with
  | case1 offset evs h1 h2 =>
    rw [rasterLoop_eq_break ld d lt dl mx offset evs h1 h2]
    simp [countKind]
  | case2 offset evs h1 h2 r1 evs2 ih =>
    have ihlen : countKind .evt (rasterLoop ld d lt dl mx (offset + 10)
          (skipEventsAt (lt + offset)
            (takeEventsBefore ld d lt dl (lt + offset) evs).2)).1 +
        (rasterLoop ld d lt dl mx (offset + 10)
          (skipEventsAt (lt + offset)
            (takeEventsBefore ld d lt dl (lt + offset) evs).2)).2.length ≤
        (skipEventsAt (lt + offset)
          (takeEventsBefore ld d lt dl (lt + offset) evs).2).length := ih.1
    have ihkind : ∀ x ∈ (rasterLoop ld d lt dl mx (offset + 10)
        (skipEventsAt (lt + offset)
          (takeEventsBefore ld d lt dl (lt + offset) evs).2)).1,
        x.kind = .evt ∨ x.kind = .raster := ih.2
    have hlen1 : (takeEventsBefore ld d lt dl (lt + offset) evs).1.length +
        (takeEventsBefore ld d lt dl (lt + offset) evs).2.length = evs.length :=
      takeEventsBefore_length ld d lt dl (lt + offset) evs
    have hkind1 : ∀ x ∈ (takeEventsBefore ld d lt dl (lt + offset) evs).1,
        x.kind = .evt :=
      takeEventsBefore_kind ld d lt dl (lt + offset) evs
    have hskip : (skipEventsAt (lt + offset)
        (takeEventsBefore ld d lt dl (lt + offset) evs).2).length ≤
        (takeEventsBefore ld d lt dl (lt + offset) evs).2.length :=
      skipEventsAt_length (lt + offset) _
    constructor
    · rw [rasterLoop_step_fst ld d lt dl mx offset evs h1 h2,
        rasterLoop_step_snd ld d lt dl mx offset evs h1 h2,
        countKind_append, countKind_cons]
      have hc1 : countKind .evt (takeEventsBefore ld d lt dl (lt + offset) evs).1 ≤
          (takeEventsBefore ld d lt dl (lt + offset) evs).1.length :=
        countKind_le_length _ _
      have hif : (if (⟨lt + offset, interpolate ld d offset dl,
          .raster⟩ : PlotData).kind = EntryKind.evt then 1 else 0) = 0 := by
        simp
      rw [hif]
      omega
    · rw [rasterLoop_step_fst ld d lt dl mx offset evs h1 h2]
      intro x hx
      rcases List.mem_append.mp hx with hx1 | hx2
      · exact Or.inl (hkind1 x hx1)
      · rcases List.mem_cons.mp hx2 with rfl | hx3
        · exact Or.inr rfl
        · exact ihkind x hx3
  | case3 offset evs h1 =>
    rw [rasterLoop_eq_stop ld d lt dl mx offset evs h1]
    simp [countKind]

theorem rasterLoop_raster_bound (ld d lt dl mx : Int) (offset : Int)
    (evs : List PEvent) :
    ∀ rb : Int, rb ≤ lt + offset - 10 → rb ≤ mx →
      ∃ rb2, rb ≤ rb2 ∧ rb2 ≤ mx ∧ (rb2 ≤ rb ∨ rb2 < lt + dl) ∧
        10 * (countKind .raster (rasterLoop ld d lt dl mx offset evs).1 : Int) +
          rb ≤ rb2 := by
  induction offset, evs using rasterLoop.induct ld d lt dl mx with
  | case1 offset evs h1 h2 =>
    intro rb hrb1 hrb2
    rw [rasterLoop_eq_break ld d lt dl mx offset evs h1 h2]
    exact ⟨rb, le_refl rb, hrb2, Or.inl (le_refl rb), by simp [countKind]⟩
  | case2 offset evs h1 h2 r1 evs2 ih =>
    intro rb hrb1 hrb2
    have ih2 : ∀ rb : Int, rb ≤ lt + (offset + 10) - 10 → rb ≤ mx →
        ∃ rb2, rb ≤ rb2 ∧ rb2 ≤ mx ∧ (rb2 ≤ rb ∨ rb2 < lt + dl) ∧
          10 * (countKind .raster (rasterLoop ld d lt dl mx (offset + 10)
            (skipEventsAt (lt + offset)
              (takeEventsBefore ld d lt dl (lt + offset) evs).2)).1 : Int) +
            rb ≤ rb2 := ih
    obtain ⟨rb2, hge, hmx, hdisj, hcount⟩ :=
      ih2 (lt + offset) (by omega) (by omega)
    refine ⟨rb2, by omega, hmx, Or.inr ?_, ?_⟩
    · rcases hdisj with hle | hlt
      · omega
      · exact hlt
    · rw [rasterLoop_step_fst ld d lt dl mx offset evs h1 h2,
        countKind_append, countKind_cons]
      have hzero : countKind .raster
          (takeEventsBefore ld d lt dl (lt + offset) evs).1 = 0 :=
        countKind_eq_zero _ _
          (by
            intro x hx
            rw [takeEventsBefore_kind ld d lt dl (lt + offset) evs x hx]
            decide)
      rw [hzero]
      have : (if (⟨lt + offset, interpolate ld d offset dl,
          .raster⟩ : PlotData).kind = EntryKind.raster then 1 else 0) = 1 := by
        simp
      rw [this]
      push_cast
      omega
  | case3 offset evs h1 =>
    intro rb hrb1 hrb2
    rw [rasterLoop_eq_stop ld d lt dl mx offset evs h1]
    exact ⟨rb, le_refl rb, hrb2, Or.inl (le_refl rb), by simp [countKind]⟩

theorem rasterLoop_raster_depth (ld d lt dl mx : Int) (offset : Int)
    (evs : List PEvent) :
    ∀ j : Int, offset = 10 * j → 1 ≤ j →
      ∀ x ∈ (rasterLoop ld d lt dl mx offset evs).1, x.kind = .raster →
        x.depth = interpolate ld d (x.sec - lt) dl ∧
        ∃ k : Int, 1 ≤ k ∧ x.sec = lt + 10 * k := by
  induction offset, evs using rasterLoop.induct ld d lt dl mx with
  | case1 offset evs h1 h2 =>
    intro j hj hj1
    rw [rasterLoop_eq_break ld d lt dl mx offset evs h1 h2]
    simp
  | case2 offset evs h1 h2 r1 evs2 ih =>
    intro j hj hj1
    rw [rasterLoop_step_fst ld d lt dl mx offset evs h1 h2]
    intro x hx hraster
    rcases List.mem_append.mp hx with hx1 | hx2
    · exfalso
      have := takeEventsBefore_kind ld d lt dl (lt + offset) evs x hx1
      rw [this] at hraster
      cases hraster
    · rcases List.mem_cons.mp hx2 with rfl | hx3
      · constructor
        · show interpolate ld d offset dl = interpolate ld d (lt + offset - lt) dl
          have harg : lt + offset - lt = offset := by omega
          rw [harg]
        · refine ⟨j, hj1, ?_⟩
          show lt + offset = lt + 10 * j
          omega
      · exact ih (j + 1) (by omega) (by omega) x hx3 hraster
  | case3 offset evs h1 =>
    intro j hj hj1
    rw [rasterLoop_eq_stop ld d lt dl mx offset evs h1]
    simp

/-! ## Lemmas about processing one sample -/

theorem processSample_out (mx lt ld : Int) (s : PSample) (evs : List PEvent) :
    (processSample mx lt ld s evs).out =
      (rasterLoop ld s.depth lt (clampTime lt s.time).2 mx 10 evs).1 ++
      (takeEventsBefore ld s.depth lt (clampTime lt s.time).2 (clampTime lt s.time).1
        (rasterLoop ld s.depth lt (clampTime lt s.time).2 mx 10 evs).2).1 ++
      [⟨(clampTime lt s.time).1, s.depth, .smp⟩] := rfl

theorem processSample_evs (mx lt ld : Int) (s : PSample) (evs : List PEvent) :
    (processSample mx lt ld s evs).evs =
      skipEventsAt (clampTime lt s.time).1
        (takeEventsBefore ld s.depth lt (clampTime lt s.time).2 (clampTime lt s.time).1
          (rasterLoop ld s.depth lt (clampTime lt s.time).2 mx 10 evs).2).2 := rfl

theorem processSample_lasttime (mx lt ld : Int) (s : PSample) (evs : List PEvent) :
    (processSample mx lt ld s evs).lasttime = (clampTime lt s.time).1 := rfl

theorem processSample_lastdepth (mx lt ld : Int) (s : PSample) (evs : List PEvent) :
    (processSample mx lt ld s evs).lastdepth = s.depth := rfl

theorem clampTime_facts (lt t : Int) :
    lt ≤ (clampTime lt t).1 ∧ (clampTime lt t).1 ≤ lt + (clampTime lt t).2 ∧
    lt + (clampTime lt t).2 ≤ (clampTime lt t).1 + 1 ∧ 1 ≤ (clampTime lt t).2 := by
  unfold clampTime
  by_cases h : t - lt ≤ 0
  · rw [if_pos h]
    refine ⟨?_, ?_, ?_, ?_⟩ <;> omega
  · rw [if_neg h]
    refine ⟨?_, ?_, ?_, ?_⟩ <;> omega

theorem processSample_core (mx lt ld dep time delta : Int) (evs : List PEvent)
    (p : Int)
    (hs : List.Pairwise (fun a b => a.time ≤ b.time) evs)
    (hlb : ∀ e ∈ evs, p ≤ e.time) (hple : p ≤ lt)
    (hA : lt ≤ time) (hB : time ≤ lt + delta) (hC : lt + delta ≤ time + 1) :
    List.Chain (· ≤ ·) p (secs ((rasterLoop ld dep lt delta mx 10 evs).1 ++
      (takeEventsBefore ld dep lt delta time
        (rasterLoop ld dep lt delta mx 10 evs).2).1 ++ [⟨time, dep, .smp⟩])) ∧
    lastD p (secs ((rasterLoop ld dep lt delta mx 10 evs).1 ++
      (takeEventsBefore ld dep lt delta time
        (rasterLoop ld dep lt delta mx 10 evs).2).1 ++ [⟨time, dep, .smp⟩])) = time ∧
    List.Pairwise (fun a b => a.time ≤ b.time)
      (skipEventsAt time (takeEventsBefore ld dep lt delta time
        (rasterLoop ld dep lt delta mx 10 evs).2).2) ∧
    (∀ e ∈ skipEventsAt time (takeEventsBefore ld dep lt delta time
        (rasterLoop ld dep lt delta mx 10 evs).2).2, time < e.time) := by
  obtain ⟨rchain, rpw, rrest, rlt⟩ :=
    rasterLoop_chain ld dep lt delta mx 10 evs p hs hlb (by omega)
  have tchain : List.Chain (· ≤ ·)
      (lastD p (secs (rasterLoop ld dep lt delta mx 10 evs).1))
      (secs (takeEventsBefore ld dep lt delta time
        (rasterLoop ld dep lt delta mx 10 evs).2).1) :=
    takeEventsBefore_chain ld dep lt delta time _ _ rpw rrest
  have tlt : ∀ x ∈ (takeEventsBefore ld dep lt delta time
      (rasterLoop ld dep lt delta mx 10 evs).2).1, x.sec < time :=
    takeEventsBefore_sec_lt ld dep lt delta time _
  have tpw : List.Pairwise (fun a b => a.time ≤ b.time)
      (takeEventsBefore ld dep lt delta time
        (rasterLoop ld dep lt delta mx 10 evs).2).2 :=
    takeEventsBefore_rest_pairwise ld dep lt delta time _ rpw
  have tge : ∀ e ∈ (takeEventsBefore ld dep lt delta time
      (rasterLoop ld dep lt delta mx 10 evs).2).2, time ≤ e.time :=
    takeEventsBefore_rest_ge ld dep lt delta time _ rpw
  have q1le : lastD p (secs (rasterLoop ld dep lt delta mx 10 evs).1) ≤ time :=
    lastD_le p time _ (le_trans hple hA)
      (by
        intro x hx
        obtain ⟨y, hy, rfl⟩ := List.mem_map.mp hx
        have := rlt y hy
        omega)
  have q2le : lastD (lastD p (secs (rasterLoop ld dep lt delta mx 10 evs).1))
      (secs (takeEventsBefore ld dep lt delta time
        (rasterLoop ld dep lt delta mx 10 evs).2).1) ≤ time :=
    lastD_le _ time _ q1le
      (by
        intro x hx
        obtain ⟨y, hy, rfl⟩ := List.mem_map.mp hx
        exact le_of_lt (tlt y hy))
  refine ⟨?_, ?_, skipEventsAt_pairwise time _ tpw,
    skipEventsAt_gt time _ tpw tge⟩
  · rw [secs_append, secs_append, secs_cons, secs_nil]
    refine chainLE_append p _ _ ?_ ?_
    · exact chainLE_append p _ _ rchain tchain
    · rw [lastD_append]
      exact List.Chain.cons q2le List.Chain.nil
  · rw [secs_append, secs_append, secs_cons, secs_nil, lastD_append, lastD_append]
    rfl

theorem processSample_main (mx lt ld : Int) (s : PSample) (evs : List PEvent)
    (p : Int)
    (hs : List.Pairwise (fun a b => a.time ≤ b.time) evs)
    (hlb : ∀ e ∈ evs, p ≤ e.time) (hple : p ≤ lt) :
    List.Chain (· ≤ ·) p (secs (processSample mx lt ld s evs).out) ∧
    lastD p (secs (processSample mx lt ld s evs).out) =
      (processSample mx lt ld s evs).lasttime ∧
    lt ≤ (processSample mx lt ld s evs).lasttime ∧
    List.Pairwise (fun a b => a.time ≤ b.time) (processSample mx lt ld s evs).evs ∧
    (∀ e ∈ (processSample mx lt ld s evs).evs,
      (processSample mx lt ld s evs).lasttime < e.time) := by
  obtain ⟨hA, hB, hC, hD⟩ := clampTime_facts lt s.time
  obtain ⟨c1, c2, c3, c4⟩ :=
    processSample_core mx lt ld s.depth (clampTime lt s.time).1
      (clampTime lt s.time).2 evs p hs hlb hple hA hB hC
  rw [processSample_out, processSample_evs, processSample_lasttime]
  exact ⟨c1, c2, hA, c3, c4⟩

theorem countKind_eq_length (k : EntryKind) (l : List PlotData)
    (h : ∀ x ∈ l, x.kind = k) : countKind k l = l.length := by
  rw [countKind, List.countP_eq_length]
  intro x hx
  simpa using h x hx

theorem processSample_count (mx lt ld : Int) (s : PSample) (evs : List PEvent) :
    countKind .evt (processSample mx lt ld s evs).out +
      (processSample mx lt ld s evs).evs.length ≤ evs.length ∧
    countKind .smp (processSample mx lt ld s evs).out = 1 ∧
    (∀ x ∈ (processSample mx lt ld s evs).out,
      x.kind = .evt ∨ x.kind = .raster ∨ x.kind = .smp) ∧
    (∀ rb : Int, rb ≤ lt → rb ≤ mx →
      ∃ rb2, rb ≤ rb2 ∧ rb2 ≤ mx ∧
        rb2 ≤ (processSample mx lt ld s evs).lasttime ∧
        10 * (countKind .raster (processSample mx lt ld s evs).out : Int) +
          rb ≤ rb2) := by
  obtain ⟨hA, hB, hC, hD⟩ := clampTime_facts lt s.time
  rw [processSample_out, processSample_evs, processSample_lasttime]
  obtain ⟨rcount, rkinds⟩ :=
    rasterLoop_count ld s.depth lt (clampTime lt s.time).2 mx 10 evs
  have tlen : (takeEventsBefore ld s.depth lt (clampTime lt s.time).2
        (clampTime lt s.time).1
        (rasterLoop ld s.depth lt (clampTime lt s.time).2 mx 10 evs).2).1.length +
      (takeEventsBefore ld s.depth lt (clampTime lt s.time).2
        (clampTime lt s.time).1
        (rasterLoop ld s.depth lt (clampTime lt s.time).2 mx 10 evs).2).2.length =
      (rasterLoop ld s.depth lt (clampTime lt s.time).2 mx 10 evs).2.length :=
    takeEventsBefore_length _ _ _ _ _ _
  have tkind : ∀ x ∈ (takeEventsBefore ld s.depth lt (clampTime lt s.time).2
      (clampTime lt s.time).1
      (rasterLoop ld s.depth lt (clampTime lt s.time).2 mx 10 evs).2).1,
      x.kind = .evt :=
    takeEventsBefore_kind _ _ _ _ _ _
  have sklen : (skipEventsAt (clampTime lt s.time).1
      (takeEventsBefore ld s.depth lt (clampTime lt s.time).2
        (clampTime lt s.time).1
        (rasterLoop ld s.depth lt (clampTime lt s.time).2 mx 10 evs).2).2).length ≤
      (takeEventsBefore ld s.depth lt (clampTime lt s.time).2
        (clampTime lt s.time).1
        (rasterLoop ld s.depth lt (clampTime lt s.time).2 mx 10 evs).2).2.length :=
    skipEventsAt_length _ _
  refine ⟨?_, ?_, ?_, ?_⟩
  · rw [countKind_append, countKind_append, countKind_cons]
    have hifz : (if (⟨(clampTime lt s.time).1, s.depth,
        .smp⟩ : PlotData).kind = EntryKind.evt then 1 else 0) = 0 := by simp
    rw [countKind_nil, hifz]
    have hblen : countKind .evt (takeEventsBefore ld s.depth lt
        (clampTime lt s.time).2 (clampTime lt s.time).1
        (rasterLoop ld s.depth lt (clampTime lt s.time).2 mx 10 evs).2).1 =
        (takeEventsBefore ld s.depth lt (clampTime lt s.time).2
          (clampTime lt s.time).1
          (rasterLoop ld s.depth lt (clampTime lt s.time).2 mx 10 evs).2).1.length :=
      countKind_eq_length _ _ tkind
    omega
  · rw [countKind_append, countKind_append, countKind_cons]
    have hz1 : countKind .smp
        (rasterLoop ld s.depth lt (clampTime lt s.time).2 mx 10 evs).1 = 0 :=
      countKind_eq_zero _ _
        (by
          intro x hx
          rcases rkinds x hx with h | h <;> rw [h] <;> decide)
    have hz2 : countKind .smp (takeEventsBefore ld s.depth lt
        (clampTime lt s.time).2 (clampTime lt s.time).1
        (rasterLoop ld s.depth lt (clampTime lt s.time).2 mx 10 evs).2).1 = 0 :=
      countKind_eq_zero _ _
        (by
          intro x hx
          rw [tkind x hx]
          decide)
    rw [hz1, hz2]
    simp [countKind]
  · intro x hx
    rcases List.mem_append.mp hx with hx12 | hx3
    · rcases List.mem_append.mp hx12 with hx1 | hx2
      · rcases rkinds x hx1 with h | h
        · exact Or.inl h
        · exact Or.inr (Or.inl h)
      · exact Or.inl (tkind x hx2)
    · rcases List.mem_cons.mp hx3 with rfl | hx4
      · exact Or.inr (Or.inr rfl)
      · simp at hx4
  · intro rb hrb1 hrb2
    obtain ⟨rb2, hge, hmx, hdisj, hcount⟩ :=
      rasterLoop_raster_bound ld s.depth lt (clampTime lt s.time).2 mx 10 evs rb
        (by omega) hrb2
    refine ⟨rb2, hge, hmx, by omega, ?_⟩
    rw [countKind_append, countKind_append, countKind_cons]
    have hz2 : countKind .raster (takeEventsBefore ld s.depth lt
        (clampTime lt s.time).2 (clampTime lt s.time).1
        (rasterLoop ld s.depth lt (clampTime lt s.time).2 mx 10 evs).2).1 = 0 :=
      countKind_eq_zero _ _
        (by
          intro x hx
          rw [tkind x hx]
          decide)
    have hifz : (if (⟨(clampTime lt s.time).1, s.depth,
        .smp⟩ : PlotData).kind = EntryKind.raster then 1 else 0) = 0 := by simp
    rw [hz2, countKind_nil, hifz]
    push_cast
    omega

theorem processSample_raster_depth (mx lt ld : Int) (s : PSample)
    (evs : List PEvent) (hlt : lt < s.time) :
    ∀ x ∈ (processSample mx lt ld s evs).out, x.kind = .raster →
      x.depth = interpolate ld s.depth (x.sec - lt) (s.time - lt) ∧
      ∃ k : Int, 1 ≤ k ∧ x.sec = lt + 10 * k := by
  have hct : clampTime lt s.time = (s.time, s.time - lt) := by
    unfold clampTime
    rw [if_neg (by omega)]
  rw [processSample_out, hct]
  intro x hx hraster
  rcases List.mem_append.mp hx with hx12 | hx3
  · rcases List.mem_append.mp hx12 with hx1 | hx2
    · exact rasterLoop_raster_depth ld s.depth lt (s.time, s.time - lt).2 mx 10 evs
        1 (by omega) (by omega) x hx1 hraster
    · exfalso
      have := takeEventsBefore_kind ld s.depth lt (s.time, s.time - lt).2
        (s.time, s.time - lt).1 _ x hx2
      rw [this] at hraster
      cases hraster
  · rcases List.mem_cons.mp hx3 with rfl | hx4
    · cases hraster
    · simp at hx4

/-! ## Lemmas about the sample loop -/

theorem sampleLoop_nil (mx lt ld : Int) (evs : List PEvent) :
    sampleLoop mx [] lt ld evs = ([], evs, lt) := rfl

theorem sampleLoop_cons_break (mx lt ld : Int) (s : PSample) (rest : List PSample)
    (evs : List PEvent) (h : (processSample mx lt ld s evs).lasttime > mx) :
    sampleLoop mx (s :: rest) lt ld evs =
      ((processSample mx lt ld s evs).out, (processSample mx lt ld s evs).evs,
        (processSample mx lt ld s evs).lasttime) := by
  simp only [sampleLoop, if_pos h]

theorem sampleLoop_cons_go (mx lt ld : Int) (s : PSample) (rest : List PSample)
    (evs : List PEvent) (h : ¬ (processSample mx lt ld s evs).lasttime > mx) :
    sampleLoop mx (s :: rest) lt ld evs =
      ((processSample mx lt ld s evs).out ++
        (sampleLoop mx rest (processSample mx lt ld s evs).lasttime
          (processSample mx lt ld s evs).lastdepth
          (processSample mx lt ld s evs).evs).1,
       (sampleLoop mx rest (processSample mx lt ld s evs).lasttime
         (processSample mx lt ld s evs).lastdepth
         (processSample mx lt ld s evs).evs).2.1,
       (sampleLoop mx rest (processSample mx lt ld s evs).lasttime
         (processSample mx lt ld s evs).lastdepth
         (processSample mx lt ld s evs).evs).2.2) := by
  simp only [sampleLoop, if_neg h]

theorem sampleLoop_chain (mx : Int) :
    ∀ (samples : List PSample) (lt ld : Int) (evs : List PEvent),
      List.Pairwise (fun a b => a.time ≤ b.time) evs →
      (∀ e ∈ evs, lt ≤ e.time) →
      List.Chain (· ≤ ·) lt (secs (sampleLoop mx samples lt ld evs).1) ∧
      lastD lt (secs (sampleLoop mx samples lt ld evs).1) =
        (sampleLoop mx samples lt ld evs).2.2 ∧
      lt ≤ (sampleLoop mx samples lt ld evs).2.2 ∧
      List.Pairwise (fun a b => a.time ≤ b.time)
        (sampleLoop mx samples lt ld evs).2.1 ∧
      (∀ e ∈ (sampleLoop mx samples lt ld evs).2.1,
        (sampleLoop mx samples lt ld evs).2.2 ≤ e.time) := by
  intro samples
  induction samples with
  | nil =>
    intro lt ld evs hs hlb
    rw [sampleLoop_nil]
    exact ⟨List.Chain.nil, rfl, le_refl lt, hs, hlb⟩
  | cons s rest ih =>
    intro lt ld evs hs hlb
    obtain ⟨pchain, plast, plt, ppw, pgt⟩ :=
      processSample_main mx lt ld s evs lt hs hlb (le_refl lt)
    by_cases hbrk : (processSample mx lt ld s evs).lasttime > mx
    · rw [sampleLoop_cons_break mx lt ld s rest evs hbrk]
      exact ⟨pchain, plast, plt, ppw, fun e he => le_of_lt (pgt e he)⟩
    · rw [sampleLoop_cons_go mx lt ld s rest evs hbrk]
      obtain ⟨ichain, ilast, ilt, ipw, ige⟩ :=
        ih (processSample mx lt ld s evs).lasttime
          (processSample mx lt ld s evs).lastdepth
          (processSample mx lt ld s evs).evs ppw
          (fun e he => le_of_lt (pgt e he))
      set A := processSample mx lt ld s evs with hAdef
      set R := sampleLoop mx rest A.lasttime A.lastdepth A.evs with hRdef
      refine ⟨?_, ?_, ?_, ipw, ige⟩
      · show List.Chain (· ≤ ·) lt (secs (A.out ++ R.1))
        rw [secs_append]
        refine chainLE_append lt _ _ pchain ?_
        rw [plast]
        exact ichain
      · show lastD lt (secs (A.out ++ R.1)) = R.2.2
        rw [secs_append, lastD_append, plast]
        exact ilast
      · show lt ≤ R.2.2
        exact le_trans plt ilt

theorem sampleLoop_count (mx : Int) :
    ∀ (samples : List PSample) (lt ld : Int) (evs : List PEvent),
      countKind .evt (sampleLoop mx samples lt ld evs).1 +
        (sampleLoop mx samples lt ld evs).2.1.length ≤ evs.length ∧
      countKind .smp (sampleLoop mx samples lt ld evs).1 ≤ samples.length ∧
      (∀ x ∈ (sampleLoop mx samples lt ld evs).1,
        x.kind = .evt ∨ x.kind = .raster ∨ x.kind = .smp) ∧
      (∀ rb : Int, rb ≤ lt → rb ≤ mx →
        ∃ rb2, rb ≤ rb2 ∧ rb2 ≤ mx ∧
          rb2 ≤ (sampleLoop mx samples lt ld evs).2.2 ∧
          10 * (countKind .raster (sampleLoop mx samples lt ld evs).1 : Int) +
            rb ≤ rb2) := by
  intro samples
  induction samples with
  | nil =>
    intro lt ld evs
    rw [sampleLoop_nil]
    refine ⟨?_, ?_, ?_, ?_⟩
    · show countKind .evt [] + evs.length ≤ evs.length
      rw [countKind_nil]
      omega
    · show countKind .smp [] ≤ 0
      rw [countKind_nil]
    · intro x hx
      simp at hx
    · intro rb hrb1 hrb2
      exact ⟨rb, le_refl rb, hrb2, hrb1, by rw [countKind_nil]; omega⟩
  | cons s rest ih =>
    intro lt ld evs
    obtain ⟨pevt, psmp, pkinds, praster⟩ := processSample_count mx lt ld s evs
    by_cases hbrk : (processSample mx lt ld s evs).lasttime > mx
    · rw [sampleLoop_cons_break mx lt ld s rest evs hbrk]
      refine ⟨pevt, ?_, pkinds, ?_⟩
      · show countKind .smp (processSample mx lt ld s evs).out ≤ rest.length + 1
        omega
      · intro rb hrb1 hrb2
        obtain ⟨rb2, h1, h2, h3, h4⟩ := praster rb hrb1 hrb2
        exact ⟨rb2, h1, h2, h3, h4⟩
    · rw [sampleLoop_cons_go mx lt ld s rest evs hbrk]
      obtain ⟨ievt, ismp, ikinds, iraster⟩ :=
        ih (processSample mx lt ld s evs).lasttime
          (processSample mx lt ld s evs).lastdepth
          (processSample mx lt ld s evs).evs
      set A := processSample mx lt ld s evs with hAdef
      set R := sampleLoop mx rest A.lasttime A.lastdepth A.evs with hRdef
      refine ⟨?_, ?_, ?_, ?_⟩
      · show countKind .evt (A.out ++ R.1) + R.2.1.length ≤ evs.length
        rw [countKind_append]
        omega
      · show countKind .smp (A.out ++ R.1) ≤ rest.length + 1
        rw [countKind_append]
        omega
      · show ∀ x ∈ A.out ++ R.1, x.kind = .evt ∨ x.kind = .raster ∨ x.kind = .smp
        intro x hx
        rcases List.mem_append.mp hx with hx1 | hx2
        · exact pkinds x hx1
        · exact ikinds x hx2
      · intro rb hrb1 hrb2
        obtain ⟨rb2, h1, h2, h3, h4⟩ := praster rb hrb1 hrb2
        obtain ⟨rb3, g1, g2, g3, g4⟩ := iraster rb2 h3 h2
        refine ⟨rb3, le_trans h1 g1, g2, g3, ?_⟩
        show 10 * (countKind .raster (A.out ++ R.1) : Int) + rb ≤ rb3
        rw [countKind_append]
        push_cast
        omega

/-! ## Lemmas about trailing events -/

theorem trailingEvents_main :
    ∀ (evs : List PEvent) (lt : Int),
      List.Chain (· ≤ ·) lt (secs (trailingEvents lt evs).1) ∧
      lastD lt (secs (trailingEvents lt evs).1) = (trailingEvents lt evs).2 ∧
      lt ≤ (trailingEvents lt evs).2 ∧
      (trailingEvents lt evs).1.length ≤ evs.length ∧
      (∀ x ∈ (trailingEvents lt evs).1, x.kind = .evt) := by
  intro evs
  induction evs with
  | nil =>
    intro lt
    simp only [trailingEvents]
    exact ⟨List.Chain.nil, rfl, le_refl lt, by simp, by simp⟩
  | cons e es ih =>
    intro lt
    by_cases h : e.time > lt
    · simp only [trailingEvents, if_pos h]
      obtain ⟨ichain, ilast, ile, ilen, ikind⟩ := ih e.time
      refine ⟨?_, ?_, ?_, ?_, ?_⟩
      · show List.Chain (· ≤ ·) lt (e.time :: secs (trailingEvents e.time es).1)
        exact List.Chain.cons (le_of_lt h) ichain
      · show lastD lt (e.time :: secs (trailingEvents e.time es).1) =
          (trailingEvents e.time es).2
        rw [lastD_cons]
        exact ilast
      · show lt ≤ (trailingEvents e.time es).2
        exact le_trans (le_of_lt h) ile
      · show (⟨e.time, 0, .evt⟩ :: (trailingEvents e.time es).1).length ≤
          es.length + 1
        simp only [List.length_cons]
        omega
      · intro x hx
        rcases List.mem_cons.mp hx with rfl | hx'
        · rfl
        · exact ikind x hx'
    · simp only [trailingEvents, if_neg h]
      obtain ⟨ichain, ilast, ile, ilen, ikind⟩ := ih lt
      exact ⟨ichain, ilast, ile, le_trans ilen (by simp), ikind⟩

/-! ## C4 / C9 / C7 — top-level properties of the entry densifier -/

theorem chain_sec_of_chainLE (x : PlotData) (l : List PlotData)
    (h : List.Chain (· ≤ ·) x.sec (secs l)) :
    List.Chain (fun a b => a.sec ≤ b.sec) x l := by
  induction l generalizing x with
  | nil => exact List.Chain.nil
  | cons y ys ih =>
    rw [secs_cons, List.chain_cons] at h
    exact List.Chain.cons h.1 (ih y h.2)

theorem populate_plot_entries_eq (samples : List PSample) (events : List PEvent)
    (maxtime : Int) :
    populate_plot_entries samples events maxtime =
      ⟨0, 0, .lead⟩ :: ⟨0, 0, .lead⟩ ::
        ((sampleLoop maxtime samples 0 0 (skipZeroEvents events)).1 ++
         (trailingEvents (sampleLoop maxtime samples 0 0 (skipZeroEvents events)).2.2
           (sampleLoop maxtime samples 0 0 (skipZeroEvents events)).2.1).1 ++
         [⟨(trailingEvents (sampleLoop maxtime samples 0 0 (skipZeroEvents events)).2.2
             (sampleLoop maxtime samples 0 0 (skipZeroEvents events)).2.1).2 + 1,
            0, .trail⟩,
          ⟨(trailingEvents (sampleLoop maxtime samples 0 0 (skipZeroEvents events)).2.2
             (sampleLoop maxtime samples 0 0 (skipZeroEvents events)).2.1).2 + 2,
            0, .trail⟩]) := rfl

/-- C4: for every raw sample stream and every time-ordered event stream
with non-negative event times, the dense series `populate_plot_entries`
produces has at least 4 entries, its entry times are non-decreasing across
the whole series, and it ends with the two padding entries placed one and
two seconds after the last real timestamp (the final `lasttime`, which
bounds every earlier entry's time). -/
theorem populate_plot_entries_shape (samples : List PSample)
    (events : List PEvent) (maxtime : Int)
    (hsort : List.Pairwise (fun a b => a.time ≤ b.time) events)
    (hpos : ∀ e ∈ events, 0 ≤ e.time) :
    4 ≤ (populate_plot_entries samples events maxtime).length ∧
    List.Chain' (fun a b => a.sec ≤ b.sec)
      (populate_plot_entries samples events maxtime) ∧
    (∃ t pre, populate_plot_entries samples events maxtime =
        pre ++ [⟨t + 1, 0, .trail⟩, ⟨t + 2, 0, .trail⟩] ∧
      (∀ x ∈ pre, x.sec ≤ t)) := by
  have hsk_pw : List.Pairwise (fun a b => a.time ≤ b.time)
      (skipZeroEvents events) := by
    rw [skipZeroEvents_eq]
    exact skipEventsAt_pairwise 0 events hsort
  have hsk_lb : ∀ e ∈ skipZeroEvents events, (0 : Int) ≤ e.time := by
    rw [skipZeroEvents_eq]
    intro e he
    exact le_of_lt (skipEventsAt_gt 0 events hsort hpos e he)
  obtain ⟨schain, slast, sle, spw, sge⟩ :=
    sampleLoop_chain maxtime samples 0 0 (skipZeroEvents events) hsk_pw hsk_lb
  obtain ⟨tchain, tlast, tle, tlen, tkind⟩ :=
    trailingEvents_main (sampleLoop maxtime samples 0 0 (skipZeroEvents events)).2.1
      (sampleLoop maxtime samples 0 0 (skipZeroEvents events)).2.2
  set SL := sampleLoop maxtime samples 0 0 (skipZeroEvents events) with hSL
  set TR := trailingEvents SL.2.2 SL.2.1 with hTR
  have hfullchain : List.Chain (· ≤ ·) (0 : Int)
      (secs (SL.1 ++ TR.1 ++ [⟨TR.2 + 1, 0, .trail⟩, ⟨TR.2 + 2, 0, .trail⟩])) := by
    rw [secs_append, secs_append, secs_cons, secs_cons, secs_nil]
    refine chainLE_append 0 _ _ (chainLE_append 0 _ _ schain ?_) ?_
    · rw [slast]
      exact tchain
    · rw [lastD_append, slast, tlast]
      refine List.Chain.cons ?_ (List.Chain.cons ?_ List.Chain.nil)
      · show TR.2 ≤ TR.2 + 1
        omega
      · show TR.2 + 1 ≤ TR.2 + 2
        omega
  refine ⟨?_, ?_, ?_⟩
  · show 4 ≤ ((⟨0, 0, .lead⟩ : PlotData) :: ⟨0, 0, .lead⟩ ::
      (SL.1 ++ TR.1 ++ [⟨TR.2 + 1, 0, .trail⟩, ⟨TR.2 + 2, 0, .trail⟩])).length
    simp only [List.length_cons, List.length_append]
    omega
  · show List.Chain' (fun a b => a.sec ≤ b.sec) ((⟨0, 0, .lead⟩ : PlotData) ::
      ⟨0, 0, .lead⟩ :: (SL.1 ++ TR.1 ++ [⟨TR.2 + 1, 0, .trail⟩, ⟨TR.2 + 2, 0, .trail⟩]))
    show List.Chain (fun a b => a.sec ≤ b.sec) (⟨0, 0, .lead⟩ : PlotData)
      (⟨0, 0, .lead⟩ :: (SL.1 ++ TR.1 ++ [⟨TR.2 + 1, 0, .trail⟩, ⟨TR.2 + 2, 0, .trail⟩]))
    refine List.Chain.cons (le_refl _) ?_
    exact chain_sec_of_chainLE _ _ hfullchain
  · refine ⟨TR.2, ⟨0, 0, .lead⟩ :: ⟨0, 0, .lead⟩ :: (SL.1 ++ TR.1), ?_, ?_⟩
    · show (⟨0, 0, .lead⟩ : PlotData) :: ⟨0, 0, .lead⟩ ::
        (SL.1 ++ TR.1 ++ [⟨TR.2 + 1, 0, .trail⟩, ⟨TR.2 + 2, 0, .trail⟩]) =
        (⟨0, 0, .lead⟩ : PlotData) :: ⟨0, 0, .lead⟩ :: (SL.1 ++ TR.1) ++
          [⟨TR.2 + 1, 0, .trail⟩, ⟨TR.2 + 2, 0, .trail⟩]
      simp [List.append_assoc]
    · have h0t : (0 : Int) ≤ TR.2 := le_trans sle tle
      intro x hx
      rcases List.mem_cons.mp hx with rfl | hx1
      · exact h0t
      · rcases List.mem_cons.mp hx1 with rfl | hx2
        · exact h0t
        · rcases List.mem_append.mp hx2 with hxs | hxt
          · have := chainLE_mem_le 0 (secs SL.1) schain x.sec
              (List.mem_map.mpr ⟨x, hxs, rfl⟩)
            rw [slast] at this
            exact le_trans this tle
          · have := chainLE_mem_le SL.2.2 (secs TR.1) tchain x.sec
              (List.mem_map.mpr ⟨x, hxt, rfl⟩)
            rw [tlast] at this
            exact this

/-- Witness for C4 at a concrete dive: two samples (30 s at 5 m,
70 s at 10 m) and one event at 45 s. -/
theorem populate_plot_entries_shape_witness :
    4 ≤ (populate_plot_entries [⟨30, 5000⟩, ⟨70, 10000⟩] [⟨45⟩] 600).length ∧
    List.Chain' (fun a b => a.sec ≤ b.sec)
      (populate_plot_entries [⟨30, 5000⟩, ⟨70, 10000⟩] [⟨45⟩] 600) ∧
    (∃ t pre, populate_plot_entries [⟨30, 5000⟩, ⟨70, 10000⟩] [⟨45⟩] 600 =
        pre ++ [⟨t + 1, 0, .trail⟩, ⟨t + 2, 0, .trail⟩] ∧
      (∀ x ∈ pre, x.sec ≤ t)) :=
  populate_plot_entries_shape [⟨30, 5000⟩, ⟨70, 10000⟩] [⟨45⟩] 600
    (by decide) (by decide)

theorem cdiv_nonneg_eq (a b : Int) (ha : 0 ≤ a) (hb : 0 ≤ b) :
    cdiv a b = a / b := by
  unfold cdiv
  cases a with
  | ofNat m =>
    cases b with
    | ofNat n => rfl
    | negSucc n =>
      have := Int.negSucc_lt_zero n
      omega
  | negSucc m =>
    have := Int.negSucc_lt_zero m
    omega

theorem length_eq_three_counts (l : List PlotData)
    (h : ∀ x ∈ l, x.kind = .evt ∨ x.kind = .raster ∨ x.kind = .smp) :
    l.length = countKind .evt l + countKind .raster l + countKind .smp l := by
  induction l with
  | nil => simp [countKind_nil]
  | cons x xs ih =>
    have hx := h x (by simp)
    have ihh := ih (fun y hy => h y (by simp [hy]))
    rw [List.length_cons, countKind_cons, countKind_cons, countKind_cons, ihh]
    rcases hx with h1 | h1 | h1 <;> rw [h1] <;> simp <;> omega

/-- C9: the number of entries `populate_plot_entries` writes — the two
leading and two trailing padding entries plus every raster, event and
sample entry — never exceeds the allocated capacity
`dc->samples + 6 + maxtime / 10 + count_events(dc)` of profile.c:528, so
every entry write is within the allocated array. -/
theorem populate_plot_entries_capacity (samples : List PSample)
    (events : List PEvent) (maxtime : Int) (h0 : 0 ≤ maxtime) :
    (populate_plot_entries samples events maxtime).length ≤
      plotAllocationBound samples events maxtime := by
  obtain ⟨sevt, ssmp, skinds, sraster⟩ :=
    sampleLoop_count maxtime samples 0 0 (skipZeroEvents events)
  obtain ⟨_, _, _, tlen, _⟩ :=
    trailingEvents_main (sampleLoop maxtime samples 0 0 (skipZeroEvents events)).2.1
      (sampleLoop maxtime samples 0 0 (skipZeroEvents events)).2.2
  set SL := sampleLoop maxtime samples 0 0 (skipZeroEvents events) with hSL
  set TR := trailingEvents SL.2.2 SL.2.1 with hTR
  have hskiplen : (skipZeroEvents events).length ≤ events.length := by
    rw [skipZeroEvents_eq]
    exact skipEventsAt_length 0 events
  obtain ⟨rb2, hrb2a, hrb2b, _, hrb2c⟩ := sraster 0 (le_refl 0) h0
  have hcr : countKind .raster SL.1 ≤ (cdiv maxtime 10).toNat := by
    rw [cdiv_nonneg_eq maxtime 10 h0 (by omega)]
    omega
  have hpart : SL.1.length =
      countKind .evt SL.1 + countKind .raster SL.1 + countKind .smp SL.1 :=
    length_eq_three_counts SL.1 skinds
  rw [populate_plot_entries_eq]
  show ((⟨0, 0, .lead⟩ : PlotData) :: ⟨0, 0, .lead⟩ ::
      (SL.1 ++ TR.1 ++ [⟨TR.2 + 1, 0, .trail⟩, ⟨TR.2 + 2, 0, .trail⟩])).length ≤
    plotAllocationBound samples events maxtime
  unfold plotAllocationBound
  simp only [List.length_cons, List.length_append, List.length_nil]
  omega

/-- Witness for C9 at a concrete dive (two samples, two events,
maxtime 600 s ≥ 0). -/
theorem populate_plot_entries_capacity_witness :
    (populate_plot_entries [⟨30, 5000⟩, ⟨700, 10000⟩] [⟨45⟩, ⟨50⟩] 600).length ≤
      plotAllocationBound [⟨30, 5000⟩, ⟨700, 10000⟩] [⟨45⟩, ⟨50⟩] 600 :=
  populate_plot_entries_capacity [⟨30, 5000⟩, ⟨700, 10000⟩] [⟨45⟩, ⟨50⟩] 600
    (by decide)

/-- C7: for a pair of consecutive raw samples with strictly increasing
timestamps (previous accepted time `lt`, depth `ld`; next sample `s`),
every synthesized raster entry `processSample` inserts between them sits
at a positive multiple-of-10-second offset after `lt` and its depth is
exactly `interpolate` — the linear interpolation of the two samples'
depths — evaluated at that time offset over the duration
`s.time - lt`. -/
theorem raster_interpolation_exact (mx lt ld : Int) (s : PSample)
    (evs : List PEvent) (hlt : lt < s.time) :
    ∀ x ∈ (processSample mx lt ld s evs).out, x.kind = .raster →
      x.depth = interpolate ld s.depth (x.sec - lt) (s.time - lt) ∧
      ∃ k : Int, 1 ≤ k ∧ x.sec = lt + 10 * k :=
  processSample_raster_depth mx lt ld s evs hlt

/-- Witness for C7: previous sample at 0 s / 0 mm, next at 25 s /
1000 mm, no events; the raster entry at 10 s carries depth 400 mm, the
linear interpolation of 0 and 1000 at 10/25. -/
theorem raster_interpolation_exact_witness :
    (⟨10, 400, .raster⟩ : PlotData).depth =
      interpolate 0 1000 ((⟨10, 400, .raster⟩ : PlotData).sec - 0) (25 - 0) ∧
    ∃ k : Int, 1 ≤ k ∧ (⟨10, 400, .raster⟩ : PlotData).sec = 0 + 10 * k := by
  have hct : clampTime 0 (⟨25, 1000⟩ : PSample).time = (25, 25) := by decide
  have htk : takeEventsBefore 0 1000 0 25 25 [] = ([], []) := rfl
  have h30 : rasterLoop 0 1000 0 25 600 30 [] = ([], []) :=
    rasterLoop_eq_stop 0 1000 0 25 600 30 [] (by norm_num)
  have h20 : rasterLoop 0 1000 0 25 600 20 [] =
      ([⟨20, interpolate 0 1000 20 25, .raster⟩], []) := by
    rw [rasterLoop_eq_step 0 1000 0 25 600 20 [] (by norm_num) (by norm_num)]
    show (([] : List PlotData) ++ ⟨20, interpolate 0 1000 20 25, .raster⟩ ::
      (rasterLoop 0 1000 0 25 600 30 []).1, (rasterLoop 0 1000 0 25 600 30 []).2) = _
    rw [h30]
    rfl
  have h10 : rasterLoop 0 1000 0 25 600 10 [] =
      ([⟨10, interpolate 0 1000 10 25, .raster⟩,
        ⟨20, interpolate 0 1000 20 25, .raster⟩], []) := by
    rw [rasterLoop_eq_step 0 1000 0 25 600 10 [] (by norm_num) (by norm_num)]
    show (([] : List PlotData) ++ ⟨10, interpolate 0 1000 10 25, .raster⟩ ::
      (rasterLoop 0 1000 0 25 600 20 []).1, (rasterLoop 0 1000 0 25 600 20 []).2) = _
    rw [h20]
    rfl
  have hout : (processSample 600 0 0 ⟨25, 1000⟩ []).out =
      [⟨10, interpolate 0 1000 10 25, .raster⟩,
       ⟨20, interpolate 0 1000 20 25, .raster⟩, ⟨25, 1000, .smp⟩] := by
    rw [processSample_out, hct]
    show (rasterLoop 0 1000 0 25 600 10 []).1 ++
      (takeEventsBefore 0 1000 0 25 25 (rasterLoop 0 1000 0 25 600 10 []).2).1 ++
      [⟨25, 1000, .smp⟩] = _
    rw [h10]
    rfl
  have hmem : (⟨10, 400, .raster⟩ : PlotData) ∈
      (processSample 600 0 0 ⟨25, 1000⟩ []).out := by
    rw [hout]
    have : interpolate 0 1000 10 25 = 400 := by decide
    rw [this]
    simp
  exact raster_interpolation_exact 600 0 0 ⟨25, 1000⟩ [] (by decide)
    ⟨10, 400, .raster⟩ hmem rfl

/-! ## C6 — the SAC estimator -/

theorem round_nonneg_of_nonneg (q : ℚ) (h : 0 ≤ q) : 0 ≤ round q := by
  rw [round_eq]
  rw [Int.le_floor]
  push_cast
  linarith

theorem pressuretime_nonneg (atmOf : Int → ℚ) (hatm : ∀ d, 0 < atmOf d) :
    ∀ w : List SacEntry, List.Chain' (fun a b => a.sec < b.sec) w →
      0 ≤ pressuretime atmOf w := by
  intro w
  induction w with
  | nil =>
    intro _
    simp [pressuretime]
  | cons a t ih =>
    intro hch
    cases t with
    | nil => simp [pressuretime]
    | cons b rest =>
      rw [List.chain'_cons] at hch
      simp only [pressuretime]
      have h1 : (0 : ℚ) ≤ atmOf (cdiv (a.depth + b.depth) 2) *
          ((b.sec - a.sec : Int) : ℚ) := by
        apply mul_nonneg (le_of_lt (hatm _))
        have : (0 : Int) ≤ b.sec - a.sec := by omega
        exact_mod_cast this
      have h2 : (0 : ℚ) ≤ pressuretime atmOf (b :: rest) := ih hch.2
      linarith

theorem pressuretime_pos (atmOf : Int → ℚ) (hatm : ∀ d, 0 < atmOf d)
    (a b : SacEntry) (rest : List SacEntry)
    (hch : List.Chain' (fun x y => x.sec < y.sec) (a :: b :: rest)) :
    0 < pressuretime atmOf (a :: b :: rest) := by
  rw [List.chain'_cons] at hch
  simp only [pressuretime]
  have h1 : (0 : ℚ) < atmOf (cdiv (a.depth + b.depth) 2) *
      ((b.sec - a.sec : Int) : ℚ) := by
    apply mul_pos (hatm _)
    have : (0 : Int) < b.sec - a.sec := by omega
    exact_mod_cast this
  have h2 : (0 : ℚ) ≤ pressuretime atmOf (b :: rest) :=
    pressuretime_nonneg atmOf hatm (b :: rest) hch.2
  linarith

theorem sacAiruse_nonneg (gv : Nat → Int → Int) (f l : SacEntry) (g : Nat) :
    0 ≤ sacAiruse gv f l g := by
  unfold sacAiruse
  generalize List.range MAX_CYLINDERS = js
  suffices h : ∀ (js : List Nat) (acc : Int), 0 ≤ acc →
      0 ≤ js.foldl (fun acc i =>
        if g.testBit i then
          let cyluse := gv i (f.pressure i) - gv i (l.pressure i)
          if 0 < cyluse then acc + cyluse else acc
        else acc) acc by
    exact h js 0 (le_refl 0)
  intro js
  induction js with
  | nil =>
    intro acc hacc
    simpa using hacc
  | cons j js ih =>
    intro acc hacc
    simp only [List.foldl_cons]
    apply ih
    by_cases h1 : g.testBit j
    · rw [if_pos h1]
      by_cases h2 : 0 < gv j (f.pressure j) - gv j (l.pressure j)
      · rw [if_pos h2]
        omega
      · rw [if_neg h2]
        exact hacc
    · rw [if_neg h1]
      exact hacc

theorem sac_between_nonneg (gv : Nat → Int → Int) (atmOf : Int → ℚ)
    (hatm : ∀ d, 0 < atmOf d) (window : List SacEntry) (gases : Nat)
    (hch : List.Chain' (fun a b => a.sec < b.sec) window) :
    0 ≤ sac_between gv atmOf window gases := by
  match window with
  | [] => simp [sac_between]
  | [x] => simp [sac_between]
  | a :: b :: rest =>
    simp only [sac_between]
    by_cases hz : sacAiruse gv a ((b :: rest).getLast (by simp)) gases = 0
    · rw [if_pos hz]
    · rw [if_neg hz]
      have hair : 0 < sacAiruse gv a ((b :: rest).getLast (by simp)) gases := by
        have := sacAiruse_nonneg gv a ((b :: rest).getLast (by simp)) gases
        omega
      have hpt : 0 < pressuretime atmOf (a :: b :: rest) / 60 := by
        have := pressuretime_pos atmOf hatm a b rest hch
        positivity
      apply round_nonneg_of_nonneg
      apply div_nonneg
      · exact_mod_cast le_of_lt hair
      · exact le_of_lt hpt

/-- C6: the SAC value `fill_sac` computes for an entry (when the entry
does not already carry a device-provided SAC value) is non-negative, and
it is exactly 0 when no cylinder of the active-mix bitmap has a pressure
reading at that entry (in that case `fill_sac` computes nothing and the
entry keeps its zero).  The hypotheses say the ambient-pressure
conversion is positive and the series times are strictly increasing, the
conditions under which `sac_between`'s integrated time is
non-degenerate. -/
theorem fill_sac_spec (gv : Nat → Int → Int) (atmOf : Int → ℚ)
    (pi : List SacEntry) (idx : Nat) (gases : Nat)
    (hatm : ∀ d, 0 < atmOf d)
    (hch : List.Chain' (fun a b => a.sec < b.sec) pi) :
    ((pi.getD idx dfltSacEntry).sac = 0 →
      have_pressures (pi.getD idx dfltSacEntry) gases = 0 →
      fill_sac gv atmOf pi idx gases = 0) ∧
    ((pi.getD idx dfltSacEntry).sac = 0 → 0 ≤ fill_sac gv atmOf pi idx gases) := by
  constructor
  · intro hsac hg
    unfold fill_sac
    rw [if_neg (by rw [hsac]; exact fun h => h rfl), if_pos hg]
    exact hsac
  · intro hsac
    unfold fill_sac
    rw [if_neg (by rw [hsac]; exact fun h => h rfl)]
    by_cases hg : have_pressures (pi.getD idx dfltSacEntry) gases = 0
    · rw [if_pos hg, hsac]
    · rw [if_neg hg]
      apply sac_between_nonneg gv atmOf hatm _ _
      exact List.Chain'.take (List.Chain'.drop hch _) _

/-- Witness for C6: a two-entry series (surface, then 5 m at 10 s) with no
pressure readings, unit ambient pressure, identity gas-volume function and
cylinder 0 active: the entry's SAC stays exactly 0 and is non-negative. -/
theorem fill_sac_spec_witness :
    fill_sac (fun _ p => p) (fun _ => 1)
      [⟨0, 0, fun _ => 0, 0⟩, ⟨10, 5000, fun _ => 0, 0⟩] 1 1 = 0 ∧
    0 ≤ fill_sac (fun _ p => p) (fun _ => 1)
      [⟨0, 0, fun _ => 0, 0⟩, ⟨10, 5000, fun _ => 0, 0⟩] 1 1 := by
  have h := fill_sac_spec (fun _ p => p) (fun _ => 1)
    [⟨0, 0, fun _ => 0, 0⟩, ⟨10, 5000, fun _ => 0, 0⟩] 1 1
    (fun d => one_pos)
    (by
      refine List.chain'_cons.mpr ⟨?_, List.chain'_singleton _⟩
      decide)
  exact ⟨h.1 rfl (by decide), h.2 rfl⟩

/-! ## C5 — the gas pressure reconstructor -/

theorem listModify_length {α : Type} (l : List α) (i : Nat) (f : α → α) :
    (listModify l i f).length = l.length := by
  induction l generalizing i with
  | nil => rfl
  | cons a as ih =>
    cases i with
    | zero => rfl
    | succ n => simp [listModify, ih]

theorem listModify_getD_eq {α : Type} (l : List α) (i : Nat) (f : α → α)
    (d : α) (h : i < l.length) :
    (listModify l i f).getD i d = f (l.getD i d) := by
  induction l generalizing i with
  | nil => simp at h
  | cons a as ih =>
    cases i with
    | zero => rfl
    | succ n =>
      simp only [listModify, List.getD_cons_succ]
      exact ih n (by simpa using h)

theorem listModify_getD_ne {α : Type} (l : List α) (i k : Nat) (f : α → α)
    (d : α) (h : k ≠ i) :
    (listModify l i f).getD k d = l.getD k d := by
  induction l generalizing i k with
  | nil => rfl
  | cons a as ih =>
    cases i with
    | zero =>
      cases k with
      | zero => exact absurd rfl h
      | succ m => rfl
    | succ n =>
      cases k with
      | zero => rfl
      | succ m =>
        simp only [listModify, List.getD_cons_succ]
        exact ih n m (fun hh => h (by rw [hh]))

theorem listModify_map {α β : Type} (l : List α) (i : Nat) (f : α → α)
    (g : α → β) (hf : ∀ x, g (f x) = g x) :
    (listModify l i f).map g = l.map g := by
  induction l generalizing i with
  | nil => rfl
  | cons a as ih =>
    cases i with
    | zero => simp [listModify, hf]
    | succ n => simp [listModify, ih]

theorem ppi_nil (t : Int) : plotPressureIndex [] t = 0 := rfl

theorem ppi_cons_ge (e : GasEntry) (es : List GasEntry) (t : Int)
    (h : t ≤ e.sec) : plotPressureIndex (e :: es) t = 0 := by
  cases es with
  | nil =>
    show (if t ≤ e.sec then 0 else 0) = 0
    rw [if_pos h]
  | cons x xs =>
    show (if t ≤ e.sec then 0 else plotPressureIndex (x :: xs) t + 1) = 0
    rw [if_pos h]

theorem ppi_singleton (e : GasEntry) (t : Int) :
    plotPressureIndex [e] t = 0 := by
  show (if t ≤ e.sec then 0 else 0) = 0
  split <;> rfl

theorem ppi_cons_lt_cons (e x : GasEntry) (xs : List GasEntry) (t : Int)
    (h : ¬ t ≤ e.sec) :
    plotPressureIndex (e :: x :: xs) t = plotPressureIndex (x :: xs) t + 1 := by
  show (if t ≤ e.sec then 0 else plotPressureIndex (x :: xs) t + 1) = _
  rw [if_neg h]

theorem plotPressureIndex_lt (es : List GasEntry) (t : Int) (h : es ≠ []) :
    plotPressureIndex es t < es.length := by
  induction es with
  | nil => exact absurd rfl h
  | cons e es ih =>
    by_cases ht : t ≤ e.sec
    · rw [ppi_cons_ge e es t ht]
      simp
    · cases es with
      | nil =>
        rw [ppi_singleton]
        simp
      | cons x xs =>
        rw [ppi_cons_lt_cons e x xs t ht]
        have := ih (by simp)
        simp only [List.length_cons] at this ⊢
        omega

theorem plotPressureIndex_congr (es es2 : List GasEntry) (t : Int)
    (h : es.map (fun e => e.sec) = es2.map (fun e => e.sec)) :
    plotPressureIndex es t = plotPressureIndex es2 t := by
  induction es generalizing es2 with
  | nil =>
    cases es2 with
    | nil => rfl
    | cons b bs => simp at h
  | cons a as ih =>
    cases es2 with
    | nil => simp at h
    | cons b bs =>
      simp only [List.map_cons, List.cons.injEq] at h
      obtain ⟨hab, htail⟩ := h
      by_cases ht : t ≤ b.sec
      · rw [ppi_cons_ge a as t (by rw [hab]; exact ht),
          ppi_cons_ge b bs t ht]
      · cases as with
        | nil =>
          cases bs with
          | nil => rw [ppi_singleton, ppi_singleton]
          | cons c cs => simp at htail
        | cons x xs =>
          cases bs with
          | nil => simp at htail
          | cons c cs =>
            rw [ppi_cons_lt_cons a x xs t (by rw [hab]; exact ht),
              ppi_cons_lt_cons b c cs t ht, ih (c :: cs) htail]

theorem plotPressureIndex_spec (t : Int) :
    ∀ es : List GasEntry,
      ((∃ j, j < es.length ∧ t ≤ (es.getD j dfltGasEntry).sec) →
        t ≤ (es.getD (plotPressureIndex es t) dfltGasEntry).sec ∧
        ∀ j < plotPressureIndex es t, (es.getD j dfltGasEntry).sec < t) ∧
      ((∀ j < es.length, (es.getD j dfltGasEntry).sec < t) →
        plotPressureIndex es t = es.length - 1) := by
  intro es
  induction es with
  | nil =>
    constructor
    · rintro ⟨j, hj, _⟩
      simp at hj
    · intro _
      rfl
  | cons e es ih =>
    constructor
    · rintro ⟨j, hj, hjt⟩
      by_cases ht : t ≤ e.sec
      · rw [ppi_cons_ge e es t ht]
        exact ⟨ht, by omega⟩
      · cases es with
        | nil =>
          exfalso
          have hj0 : j = 0 := by simpa using hj
          rw [hj0] at hjt
          exact ht (by simpa using hjt)
        | cons x xs =>
          rw [ppi_cons_lt_cons e x xs t ht]
          have hj2 : ∃ j2, j2 < (x :: xs).length ∧
              t ≤ ((x :: xs).getD j2 dfltGasEntry).sec := by
            cases j with
            | zero =>
              exfalso
              exact ht (by simpa using hjt)
            | succ m =>
              exact ⟨m, by simpa using hj, by simpa using hjt⟩
          obtain ⟨h1, h2⟩ := (ih.1) hj2
          constructor
          · simpa using h1
          · intro j2 hj2lt
            cases j2 with
            | zero =>
              simpa using lt_of_not_le ht
            | succ m =>
              simp only [List.getD_cons_succ]
              exact h2 m (by omega)
    · intro hall
      by_cases ht : t ≤ e.sec
      · exfalso
        have := hall 0 (by simp)
        simp only [List.getD_cons_zero] at this
        omega
      · cases es with
        | nil =>
          rw [ppi_singleton]
          rfl
        | cons x xs =>
          rw [ppi_cons_lt_cons e x xs t ht]
          have hih := ih.2 (by
            intro j hj
            have := hall (j + 1) (by simpa using hj)
            simpa using this)
          rw [hih]
          simp only [List.length_cons]
          omega

theorem add_plot_pressure_map_sec (es : List GasEntry) (t : Int) (c : Nat)
    (p : Int) :
    (add_plot_pressure es t c p).map (fun e => e.sec) =
      es.map (fun e => e.sec) := by
  unfold add_plot_pressure
  by_cases h : es.isEmpty
  · rw [if_pos h]
  · rw [if_neg h]
    exact listModify_map es _ _ _ (fun x => rfl)

theorem add_plot_pressure_length (es : List GasEntry) (t : Int) (c : Nat)
    (p : Int) :
    (add_plot_pressure es t c p).length = es.length := by
  have := congrArg List.length (add_plot_pressure_map_sec es t c p)
  simpa using this

theorem add_plot_pressure_getD_ne (es : List GasEntry) (t : Int) (c : Nat)
    (p : Int) (k : Nat) (d : GasEntry) (h : k ≠ plotPressureIndex es t) :
    (add_plot_pressure es t c p).getD k d = es.getD k d := by
  unfold add_plot_pressure
  by_cases he : es.isEmpty
  · rw [if_pos he]
  · rw [if_neg he]
    exact listModify_getD_ne es _ k _ d h

theorem add_plot_pressure_getD_at (es : List GasEntry) (t : Int) (c : Nat)
    (p : Int) (hne : ¬ es.isEmpty) :
    (add_plot_pressure es t c p).getD (plotPressureIndex es t) dfltGasEntry =
      { es.getD (plotPressureIndex es t) dfltGasEntry with
        pressure := Function.update
          (es.getD (plotPressureIndex es t) dfltGasEntry).pressure c p } := by
  unfold add_plot_pressure
  rw [if_neg hne]
  exact listModify_getD_eq es _ _ dfltGasEntry
    (plotPressureIndex_lt es t (by simpa using hne))

theorem add_plot_pressure_slot_ne (es : List GasEntry) (t : Int) (c : Nat)
    (p : Int) (j : Nat) (hj : j ≠ c) (k : Nat) :
    ((add_plot_pressure es t c p).getD k dfltGasEntry).pressure j =
      (es.getD k dfltGasEntry).pressure j := by
  by_cases he : es.isEmpty
  · unfold add_plot_pressure
    rw [if_pos he]
  · by_cases hk : k = plotPressureIndex es t
    · subst hk
      rw [add_plot_pressure_getD_at es t c p he]
      exact Function.update_noteq hj _ _
    · rw [add_plot_pressure_getD_ne es t c p k dfltGasEntry hk]

theorem scanGaschangeEvents_seen :
    ∀ (evs : List GasChangeEvent) (st : GasScanState) (i : Nat),
      ((scanGaschangeEvents evs st).seen i ≠ 0 ↔
        (st.seen i ≠ 0 ∨ ∃ e ∈ evs, 0 ≤ e.index ∧ e.index.toNat = i)) := by
  intro evs
  induction evs with
  | nil =>
    intro st i
    simp [scanGaschangeEvents]
  | cons e es ih =>
    intro st i
    by_cases hneg : e.index < 0
    · simp only [scanGaschangeEvents, if_pos hneg]
      rw [ih st i]
      constructor
      · rintro (h | h)
        · exact Or.inl h
        · exact Or.inr (by
            obtain ⟨e2, he2, h2⟩ := h
            exact ⟨e2, by simp [he2], h2⟩)
      · rintro (h | ⟨e2, he2, h2⟩)
        · exact Or.inl h
        · rcases List.mem_cons.mp he2 with rfl | he2'
          · omega
          · exact Or.inr ⟨e2, he2', h2⟩
    · simp only [scanGaschangeEvents, if_neg hneg]
      by_cases hsn : st.seen e.index.toNat = 0
      · rw [if_pos hsn, ih]
        show Function.update st.seen e.index.toNat 1 i ≠ 0 ∨ _ ↔ _
        constructor
        · rintro (h | h)
          · by_cases hie : i = e.index.toNat
            · exact Or.inr ⟨e, by simp, by omega, hie.symm⟩
            · rw [Function.update_noteq hie] at h
              exact Or.inl h
          · obtain ⟨e2, he2, h2⟩ := h
            exact Or.inr ⟨e2, by simp [he2], h2⟩
        · rintro (h | ⟨e2, he2, h2⟩)
          · left
            by_cases hie : i = e.index.toNat
            · subst hie
              rw [Function.update_same]
              omega
            · rw [Function.update_noteq hie]
              exact h
          · rcases List.mem_cons.mp he2 with rfl | he2'
            · left
              have : i = e2.index.toNat := h2.2.symm
              subst this
              rw [Function.update_same]
              omega
            · exact Or.inr ⟨e2, he2', h2⟩
      · rw [if_neg hsn, ih]
        show st.seen i ≠ 0 ∨ _ ↔ _
        constructor
        · rintro (h | ⟨e2, he2, h2⟩)
          · exact Or.inl h
          · exact Or.inr ⟨e2, by simp [he2], h2⟩
        · rintro (h | ⟨e2, he2, h2⟩)
          · exact Or.inl h
          · rcases List.mem_cons.mp he2 with rfl | he2'
            · left
              have : i = e2.index.toNat := h2.2.symm
              subst this
              exact hsn
            · exact Or.inr ⟨e2, he2', h2⟩

theorem scanGaschangeEvents_seen_cases :
    ∀ (evs : List GasChangeEvent) (st : GasScanState),
      (∀ j, st.seen j = 0 ∨ st.seen j = 1) →
      ∀ i, (scanGaschangeEvents evs st).seen i = 0 ∨
        (scanGaschangeEvents evs st).seen i = 1 := by
  intro evs
  induction evs with
  | nil =>
    intro st h i
    exact h i
  | cons e es ih =>
    intro st h i
    by_cases hneg : e.index < 0
    · simp only [scanGaschangeEvents, if_pos hneg]
      exact ih st h i
    · simp only [scanGaschangeEvents, if_neg hneg]
      by_cases hsn : st.seen e.index.toNat = 0
      · rw [if_pos hsn]
        refine ih _ ?_ i
        intro j
        show Function.update st.seen e.index.toNat 1 j = 0 ∨
          Function.update st.seen e.index.toNat 1 j = 1
        by_cases hje : j = e.index.toNat
        · subst hje
          rw [Function.update_same]
          right
          rfl
        · rw [Function.update_noteq hje]
          exact h j
      · rw [if_neg hsn]
        refine ih _ ?_ i
        intro j
        exact h j

theorem gasScan_seen (prev0 : Nat) (events : List GasChangeEvent) :
    (gasScan prev0 events).seen =
      (scanGaschangeEvents events (initialGasScanState prev0)).seen := rfl

theorem gasScan_seen_iff (prev0 : Nat) (events : List GasChangeEvent) (i : Nat) :
    ((gasScan prev0 events).seen i ≠ 0 ↔
      (i = prev0 ∨ ∃ e ∈ events, 0 ≤ e.index ∧ e.index.toNat = i)) := by
  rw [gasScan_seen, scanGaschangeEvents_seen]
  constructor
  · rintro (h | h)
    · left
      by_cases hip : i = prev0
      · exact hip
      · exfalso
        apply h
        show Function.update (fun _ => (0 : Int)) prev0 1 i = 0
        rw [Function.update_noteq hip]
    · exact Or.inr h
  · rintro (h | h)
    · left
      subst h
      show Function.update (fun _ => (0 : Int)) i 1 i ≠ 0
      rw [Function.update_same]
      omega
    · exact Or.inr h

theorem gasScan_seen_cases (prev0 : Nat) (events : List GasChangeEvent)
    (i : Nat) :
    (gasScan prev0 events).seen i = 0 ∨ (gasScan prev0 events).seen i = 1 := by
  rw [gasScan_seen]
  refine scanGaschangeEvents_seen_cases events _ ?_ i
  intro j
  show Function.update (fun _ => (0 : Int)) prev0 1 j = 0 ∨
    Function.update (fun _ => (0 : Int)) prev0 1 j = 1
  by_cases hj : j = prev0
  · subst hj
    rw [Function.update_same]
    right
    rfl
  · rw [Function.update_noteq hj]
    left
    rfl

theorem markStep_self (cyls : Nat → CylinderInfo) (m : Nat → Bool)
    (sn : Nat → Int) (i : Nat) :
    markStep cyls m sn i i =
      (if (cyls i).start_mbar = 0 ∨ (cyls i).end_mbar = 0 ∨
          (cyls i).start_mbar = (cyls i).end_mbar then -1
       else if sn i ≠ 0 then sn i
       else if m i then -1 else sn i) := by
  unfold markStep
  split
  · rw [Function.update_same]
  · split
    · rfl
    · split
      · rw [Function.update_same]
      · rfl

theorem markStep_other (cyls : Nat → CylinderInfo) (m : Nat → Bool)
    (sn : Nat → Int) (j i : Nat) (h : i ≠ j) :
    markStep cyls m sn j i = sn i := by
  unfold markStep
  split
  · exact Function.update_noteq h _ _
  · split
    · rfl
    · split
      · exact Function.update_noteq h _ _
      · rfl

theorem markFold_not_mem (cyls : Nat → CylinderInfo) (m : Nat → Bool) :
    ∀ (js : List Nat) (sn : Nat → Int) (i : Nat), i ∉ js →
      (js.foldl (markStep cyls m) sn) i = sn i := by
  intro js
  induction js with
  | nil =>
    intro sn i _
    rfl
  | cons j js ih =>
    intro sn i hi
    simp only [List.foldl_cons]
    rw [ih _ i (fun h => hi (by simp [h]))]
    exact markStep_other cyls m sn j i (fun h => hi (by simp [h]))

theorem markFold_range (cyls : Nat → CylinderInfo) (m : Nat → Bool) :
    ∀ (n : Nat) (sn : Nat → Int) (i : Nat), i < n →
      ((List.range n).foldl (markStep cyls m) sn) i =
        (if (cyls i).start_mbar = 0 ∨ (cyls i).end_mbar = 0 ∨
            (cyls i).start_mbar = (cyls i).end_mbar then -1
         else if sn i ≠ 0 then sn i
         else if m i then -1 else sn i) := by
  intro n
  induction n with
  | zero =>
    intro sn i hi
    omega
  | succ k ih =>
    intro sn i hi
    rw [List.range_succ, List.foldl_append]
    simp only [List.foldl_cons, List.foldl_nil]
    by_cases hik : i < k
    · rw [markStep_other cyls m _ k i (by omega)]
      exact ih sn i hik
    · have hik2 : i = k := by omega
      subst hik2
      have hpre : ((List.range i).foldl (markStep cyls m) sn) i = sn i :=
        markFold_not_mem cyls m _ sn i (by simp)
      rw [markStep_self, hpre]

theorem isEmpty_false_of_ne_nil {α : Type} (l : List α) (h : l ≠ []) :
    l.isEmpty = false := by
  cases l with
  | nil => exact absurd rfl h
  | cons a as => rfl

theorem writeStep_map_sec (cyls : Nat → CylinderInfo) (st : GasScanState)
    (seenF : Nat → Int) (es : List GasEntry) (i : Nat) :
    (writeStep cyls st seenF es i).map (fun e => e.sec) =
      es.map (fun e => e.sec) := by
  unfold writeStep
  split
  · rw [add_plot_pressure_map_sec, add_plot_pressure_map_sec]
  · rfl

theorem writeStep_slot_ne (cyls : Nat → CylinderInfo) (st : GasScanState)
    (seenF : Nat → Int) (es : List GasEntry) (i j : Nat) (hj : j ≠ i)
    (k : Nat) :
    ((writeStep cyls st seenF es i).getD k dfltGasEntry).pressure j =
      (es.getD k dfltGasEntry).pressure j := by
  unfold writeStep
  split
  · rw [add_plot_pressure_slot_ne _ _ _ _ j hj, add_plot_pressure_slot_ne _ _ _ _ j hj]
  · rfl

theorem writeFold_map_sec (cyls : Nat → CylinderInfo) (st : GasScanState)
    (seenF : Nat → Int) :
    ∀ (js : List Nat) (es : List GasEntry),
      ((js.foldl (writeStep cyls st seenF) es).map (fun e => e.sec)) =
        es.map (fun e => e.sec) := by
  intro js
  induction js with
  | nil =>
    intro es
    rfl
  | cons j js ih =>
    intro es
    simp only [List.foldl_cons]
    rw [ih, writeStep_map_sec]

theorem writeFold_slot_not_mem (cyls : Nat → CylinderInfo) (st : GasScanState)
    (seenF : Nat → Int) :
    ∀ (js : List Nat) (es : List GasEntry) (j : Nat), j ∉ js → ∀ k,
      (((js.foldl (writeStep cyls st seenF) es)).getD k dfltGasEntry).pressure j =
        (es.getD k dfltGasEntry).pressure j := by
  intro js
  induction js with
  | nil =>
    intro es j _ k
    rfl
  | cons j0 js ih =>
    intro es j hj k
    simp only [List.foldl_cons]
    rw [ih _ j (fun h => hj (by simp [h])) k,
      writeStep_slot_ne cyls st seenF es j0 j (fun h => hj (by simp [h])) k]

theorem writeStep_self (cyls : Nat → CylinderInfo) (st : GasScanState)
    (seenF : Nat → Int) (es : List GasEntry) (i : Nat)
    (hne : es ≠ []) (hseen : 0 ≤ seenF i) :
    (((writeStep cyls st seenF es i)).getD
        (plotPressureIndex es (st.last i)) dfltGasEntry).pressure i =
      (cyls i).end_mbar ∧
    (plotPressureIndex es (st.first i) ≠ plotPressureIndex es (st.last i) →
      (((writeStep cyls st seenF es i)).getD
          (plotPressureIndex es (st.first i)) dfltGasEntry).pressure i =
        (cyls i).start_mbar) := by
  unfold writeStep
  rw [if_pos hseen]
  have hne1 : add_plot_pressure es (st.first i) i (cyls i).start_mbar ≠ [] := by
    have := add_plot_pressure_length es (st.first i) i (cyls i).start_mbar
    intro hnil
    rw [hnil] at this
    simp at this
    exact hne (List.length_eq_zero.mp this.symm)
  have hppi : ∀ t : Int,
      plotPressureIndex (add_plot_pressure es (st.first i) i (cyls i).start_mbar) t =
        plotPressureIndex es t := by
    intro t
    exact plotPressureIndex_congr _ _ t
      (add_plot_pressure_map_sec es (st.first i) i (cyls i).start_mbar)
  constructor
  · have := add_plot_pressure_getD_at
      (add_plot_pressure es (st.first i) i (cyls i).start_mbar)
      (st.last i) i (cyls i).end_mbar
      (by rw [isEmpty_false_of_ne_nil _ hne1]; exact Bool.false_ne_true)
    rw [hppi (st.last i)] at this
    rw [this]
    exact Function.update_same _ _ _
  · intro hk
    rw [add_plot_pressure_getD_ne _ (st.last i) i (cyls i).end_mbar _ dfltGasEntry
      (by rw [hppi (st.last i)]; exact hk)]
    have := add_plot_pressure_getD_at es (st.first i) i (cyls i).start_mbar
      (by rw [isEmpty_false_of_ne_nil _ hne]; exact Bool.false_ne_true)
    rw [this]
    exact Function.update_same _ _ _

theorem writeFold_range (cyls : Nat → CylinderInfo) (st : GasScanState)
    (seenF : Nat → Int) :
    ∀ (n : Nat) (es : List GasEntry) (i : Nat), i < n → es ≠ [] →
      0 ≤ seenF i →
      ((((List.range n).foldl (writeStep cyls st seenF) es)).getD
          (plotPressureIndex es (st.last i)) dfltGasEntry).pressure i =
        (cyls i).end_mbar ∧
      (plotPressureIndex es (st.first i) ≠ plotPressureIndex es (st.last i) →
        ((((List.range n).foldl (writeStep cyls st seenF) es)).getD
            (plotPressureIndex es (st.first i)) dfltGasEntry).pressure i =
          (cyls i).start_mbar) := by
  intro n
  induction n with
  | zero =>
    intro es i hi
    omega
  | succ k ih =>
    intro es i hi hne hseen
    rw [List.range_succ, List.foldl_append]
    simp only [List.foldl_cons, List.foldl_nil]
    by_cases hik : i < k
    · constructor
      · rw [writeStep_slot_ne cyls st seenF _ k i (by omega)]
        exact (ih es i hik hne hseen).1
      · intro hk12
        rw [writeStep_slot_ne cyls st seenF _ k i (by omega)]
        exact (ih es i hik hne hseen).2 hk12
    · have hik2 : i = k := by omega
      subst hik2
      have hpre_sec : ((List.range i).foldl (writeStep cyls st seenF) es).map
          (fun e => e.sec) = es.map (fun e => e.sec) :=
        writeFold_map_sec cyls st seenF _ es
      have hpre_ne : (List.range i).foldl (writeStep cyls st seenF) es ≠ [] := by
        intro hnil
        rw [hnil] at hpre_sec
        cases es with
        | nil => exact hne rfl
        | cons a as => simp at hpre_sec
      have hppi : ∀ t : Int,
          plotPressureIndex ((List.range i).foldl (writeStep cyls st seenF) es) t =
            plotPressureIndex es t := by
        intro t
        exact plotPressureIndex_congr _ _ t hpre_sec
      obtain ⟨hend, hstart⟩ :=
        writeStep_self cyls st seenF _ i hpre_ne hseen
      rw [hppi (st.last i)] at hend
      rw [hppi (st.first i), hppi (st.last i)] at hstart
      exact ⟨hend, hstart⟩

/-- C5 counterexample: cylinder 1 is referenced by a gaschange event at
100 s, so by the claim it is not excluded and its (non-missing) start
pressure 5000 mbar would be back-filled at the first entry at or after
100 s; but because its start pressure equals its end pressure, the code
(profile.c:873) marks it uninteresting unconditionally and writes no
pressure for it anywhere.  This refutes the claim's "excluded exactly
when it has no gas-change event referencing it and its start pressure
equals its end pressure". -/
theorem setup_gas_sensor_pressure_counterexample :
    ¬ excluded_spec
        (fun i => if i = 0 then ⟨200000, 100000⟩
          else if i = 1 then ⟨5000, 5000⟩ else ⟨0, 0⟩)
        [⟨100, 1⟩] 1 ∧
    (((fun i => if i = 0 then (⟨200000, 100000⟩ : CylinderInfo)
        else if i = 1 then ⟨5000, 5000⟩ else ⟨0, 0⟩) 1).start_mbar = 5000 ∧
      (5000 : Int) ≠ 0) ∧
    ((setup_gas_sensor_pressure
        (fun i => if i = 0 then ⟨200000, 100000⟩
          else if i = 1 then ⟨5000, 5000⟩ else ⟨0, 0⟩)
        (fun _ => false) 0 [⟨100, 1⟩]
        [⟨0, fun _ => 0⟩, ⟨50, fun _ => 0⟩, ⟨150, fun _ => 0⟩]).getD 0
          dfltGasEntry).pressure 1 = 0 ∧
    ((setup_gas_sensor_pressure
        (fun i => if i = 0 then ⟨200000, 100000⟩
          else if i = 1 then ⟨5000, 5000⟩ else ⟨0, 0⟩)
        (fun _ => false) 0 [⟨100, 1⟩]
        [⟨0, fun _ => 0⟩, ⟨50, fun _ => 0⟩, ⟨150, fun _ => 0⟩]).getD 1
          dfltGasEntry).pressure 1 = 0 ∧
    ((setup_gas_sensor_pressure
        (fun i => if i = 0 then ⟨200000, 100000⟩
          else if i = 1 then ⟨5000, 5000⟩ else ⟨0, 0⟩)
        (fun _ => false) 0 [⟨100, 1⟩]
        [⟨0, fun _ => 0⟩, ⟨50, fun _ => 0⟩, ⟨150, fun _ => 0⟩]).getD 2
          dfltGasEntry).pressure 1 = 0 := by
  refine ⟨?_, ⟨by decide, by decide⟩, ?_, ?_, ?_⟩ <;> decide

/-- C5 (amended): a cylinder is excluded from pressure back-filling
exactly when its start or end pressure is missing or its start equals its
end (regardless of gas-change events), or when this dive computer never
references it (it is neither the explicit initial cylinder nor the target
of any of its gas-change events) but some dive computer's gaschange
mentions it; every non-excluded cylinder gets its end pressure written at
the entry `add_plot_pressure` selects for its last-use time and — when
distinct — its start pressure at the entry selected for its first-use
time, where the selected entry is the first one at or after the target
time, or the series' last entry when none qualifies. -/
theorem setup_gas_sensor_pressure_amended (cyls : Nat → CylinderInfo)
    (mentioned : Nat → Bool) (prev0 : Nat) (events : List GasChangeEvent)
    (entries : List GasEntry) (i : Nat)
    (hi : i < MAX_CYLINDERS) (hne : entries ≠ []) :
    ((markUninteresting cyls mentioned (gasScan prev0 events).seen) i < 0 ↔
      (((cyls i).start_mbar = 0 ∨ (cyls i).end_mbar = 0 ∨
        (cyls i).start_mbar = (cyls i).end_mbar) ∨
       (¬(i = prev0 ∨ ∃ e ∈ events, 0 ≤ e.index ∧ e.index.toNat = i) ∧
        mentioned i = true))) ∧
    (0 ≤ (markUninteresting cyls mentioned (gasScan prev0 events).seen) i →
      (((setup_gas_sensor_pressure cyls mentioned prev0 events entries).getD
          (plotPressureIndex entries ((gasScan prev0 events).last i))
          dfltGasEntry).pressure i = (cyls i).end_mbar ∧
       (plotPressureIndex entries ((gasScan prev0 events).first i) ≠
          plotPressureIndex entries ((gasScan prev0 events).last i) →
        ((setup_gas_sensor_pressure cyls mentioned prev0 events entries).getD
            (plotPressureIndex entries ((gasScan prev0 events).first i))
            dfltGasEntry).pressure i = (cyls i).start_mbar))) ∧
    (∀ t : Int,
      ((∃ j, j < entries.length ∧ t ≤ (entries.getD j dfltGasEntry).sec) →
        t ≤ (entries.getD (plotPressureIndex entries t) dfltGasEntry).sec ∧
        ∀ j < plotPressureIndex entries t,
          (entries.getD j dfltGasEntry).sec < t) ∧
      ((∀ j < entries.length, (entries.getD j dfltGasEntry).sec < t) →
        plotPressureIndex entries t = entries.length - 1)) := by
  have hmark : (markUninteresting cyls mentioned (gasScan prev0 events).seen) i =
      (if (cyls i).start_mbar = 0 ∨ (cyls i).end_mbar = 0 ∨
          (cyls i).start_mbar = (cyls i).end_mbar then -1
       else if (gasScan prev0 events).seen i ≠ 0 then (gasScan prev0 events).seen i
       else if mentioned i then -1 else (gasScan prev0 events).seen i) :=
    markFold_range cyls mentioned MAX_CYLINDERS (gasScan prev0 events).seen i hi
  refine ⟨?_, ?_, fun t => plotPressureIndex_spec t entries⟩
  · rw [hmark]
    by_cases hdeg : (cyls i).start_mbar = 0 ∨ (cyls i).end_mbar = 0 ∨
        (cyls i).start_mbar = (cyls i).end_mbar
    · rw [if_pos hdeg]
      constructor
      · intro _
        exact Or.inl hdeg
      · intro _
        norm_num
    · rw [if_neg hdeg]
      by_cases hsn : (gasScan prev0 events).seen i ≠ 0
      · rw [if_pos hsn]
        have hone : (gasScan prev0 events).seen i = 1 := by
          rcases gasScan_seen_cases prev0 events i with h | h
          · exact absurd h hsn
          · exact h
        rw [hone]
        constructor
        · intro h
          omega
        · rintro (h | ⟨hns, _⟩)
          · exact absurd h hdeg
          · exact absurd ((gasScan_seen_iff prev0 events i).mp hsn) hns
      · rw [if_neg hsn]
        push_neg at hsn
        have hnotseen : ¬(i = prev0 ∨ ∃ e ∈ events, 0 ≤ e.index ∧
            e.index.toNat = i) := by
          intro h
          have := (gasScan_seen_iff prev0 events i).mpr h
          exact this hsn
        by_cases hm : mentioned i = true
        · rw [if_pos hm]
          constructor
          · intro _
            exact Or.inr ⟨hnotseen, hm⟩
          · intro _
            norm_num
        · rw [if_neg hm]
          rw [hsn]
          constructor
          · intro h
            omega
          · rintro (h | ⟨_, hm2⟩)
            · exact absurd h hdeg
            · exact absurd hm2 hm
  · intro hge
    exact writeFold_range cyls (gasScan prev0 events)
      (markUninteresting cyls mentioned (gasScan prev0 events).seen)
      MAX_CYLINDERS entries i hi hne hge

/-- Witness for the amended C5 at a concrete dive: one interesting
cylinder 0 (the initial cylinder, pressures 200000 → 100000 mbar), no
events, a two-entry series. -/
theorem setup_gas_sensor_pressure_amended_witness :
    ((markUninteresting (fun i => if i = 0 then ⟨200000, 100000⟩ else ⟨0, 0⟩)
        (fun _ => false) (gasScan 0 []).seen) 0 < 0 ↔
      ((((fun i => if i = 0 then (⟨200000, 100000⟩ : CylinderInfo)
          else ⟨0, 0⟩) 0).start_mbar = 0 ∨
        (((fun i => if i = 0 then (⟨200000, 100000⟩ : CylinderInfo)
          else ⟨0, 0⟩) 0).end_mbar = 0) ∨
        (((fun i => if i = 0 then (⟨200000, 100000⟩ : CylinderInfo)
          else ⟨0, 0⟩) 0).start_mbar =
         ((fun i => if i = 0 then (⟨200000, 100000⟩ : CylinderInfo)
          else ⟨0, 0⟩) 0).end_mbar)) ∨
       (¬((0 : Nat) = 0 ∨ ∃ e ∈ ([] : List GasChangeEvent),
          0 ≤ e.index ∧ e.index.toNat = 0) ∧ (fun _ => false) 0 = true))) ∧
    (0 ≤ (markUninteresting (fun i => if i = 0 then ⟨200000, 100000⟩ else ⟨0, 0⟩)
        (fun _ => false) (gasScan 0 []).seen) 0 →
      (((setup_gas_sensor_pressure
          (fun i => if i = 0 then ⟨200000, 100000⟩ else ⟨0, 0⟩)
          (fun _ => false) 0 [] [⟨0, fun _ => 0⟩, ⟨50, fun _ => 0⟩]).getD
          (plotPressureIndex [⟨0, fun _ => 0⟩, ⟨50, fun _ => 0⟩]
            ((gasScan 0 []).last 0)) dfltGasEntry).pressure 0 =
        ((fun i => if i = 0 then (⟨200000, 100000⟩ : CylinderInfo)
          else ⟨0, 0⟩) 0).end_mbar ∧
       (plotPressureIndex [⟨0, fun _ => 0⟩, ⟨50, fun _ => 0⟩]
          ((gasScan 0 []).first 0) ≠
        plotPressureIndex [⟨0, fun _ => 0⟩, ⟨50, fun _ => 0⟩]
          ((gasScan 0 []).last 0) →
        ((setup_gas_sensor_pressure
            (fun i => if i = 0 then ⟨200000, 100000⟩ else ⟨0, 0⟩)
            (fun _ => false) 0 [] [⟨0, fun _ => 0⟩, ⟨50, fun _ => 0⟩]).getD
            (plotPressureIndex [⟨0, fun _ => 0⟩, ⟨50, fun _ => 0⟩]
              ((gasScan 0 []).first 0)) dfltGasEntry).pressure 0 =
          ((fun i => if i = 0 then (⟨200000, 100000⟩ : CylinderInfo)
            else ⟨0, 0⟩) 0).start_mbar))) ∧
    (∀ t : Int,
      ((∃ j, j < ([⟨0, fun _ => 0⟩, ⟨50, fun _ => 0⟩] :
            List GasEntry).length ∧
          t ≤ (([⟨0, fun _ => 0⟩, ⟨50, fun _ => 0⟩] :
            List GasEntry).getD j dfltGasEntry).sec) →
        t ≤ (([⟨0, fun _ => 0⟩, ⟨50, fun _ => 0⟩] : List GasEntry).getD
          (plotPressureIndex [⟨0, fun _ => 0⟩, ⟨50, fun _ => 0⟩] t)
          dfltGasEntry).sec ∧
        ∀ j < plotPressureIndex [⟨0, fun _ => 0⟩, ⟨50, fun _ => 0⟩] t,
          (([⟨0, fun _ => 0⟩, ⟨50, fun _ => 0⟩] : List GasEntry).getD j
            dfltGasEntry).sec < t) ∧
      ((∀ j < ([⟨0, fun _ => 0⟩, ⟨50, fun _ => 0⟩] : List GasEntry).length,
          (([⟨0, fun _ => 0⟩, ⟨50, fun _ => 0⟩] : List GasEntry).getD j
            dfltGasEntry).sec < t) →
        plotPressureIndex [⟨0, fun _ => 0⟩, ⟨50, fun _ => 0⟩] t =
          ([⟨0, fun _ => 0⟩, ⟨50, fun _ => 0⟩] : List GasEntry).length - 1)) :=
  setup_gas_sensor_pressure_amended
    (fun i => if i = 0 then ⟨200000, 100000⟩ else ⟨0, 0⟩)
    (fun _ => false) 0 [] [⟨0, fun _ => 0⟩, ⟨50, fun _ => 0⟩] 0
    (by decide) (List.cons_ne_nil _ _)
